import Mathlib

/-
Shallow embedding of the Bluesky Sentiment Analyzer job coordinator
(the scheduled Lambda handler in the repository, together with the
helper functions it calls and the legacy compiled variant deployed by
the Terraform configuration).  External collaborators (DynamoDB, the
Bluesky feed-search API, the Comprehend scorer, SNS, the scheduler and
the satellite Lambdas) are modelled as oracles supplied in a `World`
record; the handler is a pure function from that world to the side
effects it issues and the value it returns.
-/

namespace BlueskySA

/-- MAX_COMPREHEND_BYTES = 4990 from the handler source
("Slightly less than 5000 for safety"). -/
def MAX_COMPREHEND_BYTES : Nat := 4990

/-- SUBTOPIC_COUNT = 3 from the handler source. -/
def SUBTOPIC_COUNT : Nat := 3

/-- MAX_SUBTOPIC_LENGTH = 255 from triggerAddSubtopicLambda. -/
def MAX_SUBTOPIC_LENGTH : Nat := 255

/-! ### UTF-8 byte model

The handler truncates over-long post texts with
`Buffer.from(text, 'utf8').slice(0, MAX_COMPREHEND_BYTES).toString('utf8')`.
We model strings as lists of Unicode code points, `Buffer.from`
as UTF-8 encoding, `slice` as `List.take`, and `toString('utf8')`
as UTF-8 decoding with U+FFFD substitution for a maximal invalid
subpart (the behaviour of the Node/V8 UTF-8 decoder). -/

/-- A Unicode scalar value: in range and not a surrogate. -/
def ValidScalar (c : Nat) : Prop := c < 0x110000 ∧ (c < 0xD800 ∨ 0xDFFF < c)

instance (c : Nat) : Decidable (ValidScalar c) := by
  unfold ValidScalar; infer_instance

/-- Standard UTF-8 encoding of a single code point. -/
def utf8EncodeChar (c : Nat) : List Nat :=
  if c < 0x80 then [c]
  else if c < 0x800 then [0xC0 + c / 0x40, 0x80 + c % 0x40]
  else if c < 0x10000 then
    [0xE0 + c / 0x1000, 0x80 + (c / 0x40) % 0x40, 0x80 + c % 0x40]
  else
    [0xF0 + c / 0x40000, 0x80 + (c / 0x1000) % 0x40,
      0x80 + (c / 0x40) % 0x40, 0x80 + c % 0x40]

/-- UTF-8 encoding of a code point sequence (`Buffer.from(text, 'utf8')`). -/
def utf8Encode (cs : List Nat) : List Nat := (cs.map utf8EncodeChar).flatten

/-- Is a byte a UTF-8 continuation byte? -/
def contOk (b : Nat) : Bool := decide (0x80 ≤ b ∧ b ≤ 0xBF)

/-- Admissible first continuation byte after a three-byte lead
(WHATWG table: E0 ⇒ A0..BF, ED ⇒ 80..9F, otherwise 80..BF). -/
def cont1Ok3 (b b1 : Nat) : Bool :=
  if b = 0xE0 then decide (0xA0 ≤ b1 ∧ b1 ≤ 0xBF)
  else if b = 0xED then decide (0x80 ≤ b1 ∧ b1 ≤ 0x9F)
  else contOk b1

/-- Admissible first continuation byte after a four-byte lead
(WHATWG table: F0 ⇒ 90..BF, F4 ⇒ 80..8F, otherwise 80..BF). -/
def cont1Ok4 (b b1 : Nat) : Bool :=
  if b = 0xF0 then decide (0x90 ≤ b1 ∧ b1 ≤ 0xBF)
  else if b = 0xF4 then decide (0x80 ≤ b1 ∧ b1 ≤ 0x8F)
  else contOk b1

/-- UTF-8 decoding with U+FFFD replacement, as performed by
`Buffer.prototype.toString('utf8')`: each maximal invalid subpart
(including a truncated trailing sequence) becomes one U+FFFD. -/
def utf8DecodeReplace : List Nat → List Nat
  | [] => []
  | b :: rest =>
    if b < 0x80 then b :: utf8DecodeReplace rest
    else if 0xC2 ≤ b ∧ b ≤ 0xDF then
      match h1 : rest with
      | [] => [0xFFFD]
      | b1 :: r1 =>
        if contOk b1 then
          ((b - 0xC0) * 0x40 + (b1 - 0x80)) :: utf8DecodeReplace r1
        else 0xFFFD :: utf8DecodeReplace rest
    else if 0xE0 ≤ b ∧ b ≤ 0xEF then
      match h1 : rest with
      | [] => [0xFFFD]
      | b1 :: r1 =>
        if cont1Ok3 b b1 then
          match h2 : r1 with
          | [] => [0xFFFD]
          | b2 :: r2 =>
            if contOk b2 then
              ((b - 0xE0) * 0x1000 + (b1 - 0x80) * 0x40 + (b2 - 0x80)) ::
                utf8DecodeReplace r2
            else 0xFFFD :: utf8DecodeReplace r1
        else 0xFFFD :: utf8DecodeReplace rest
    else if 0xF0 ≤ b ∧ b ≤ 0xF4 then
      match h1 : rest with
      | [] => [0xFFFD]
      | b1 :: r1 =>
        if cont1Ok4 b b1 then
          match h2 : r1 with
          | [] => [0xFFFD]
          | b2 :: r2 =>
            if contOk b2 then
              match h3 : r2 with
              | [] => [0xFFFD]
              | b3 :: r3 =>
                if contOk b3 then
                  ((b - 0xF0) * 0x40000 + (b1 - 0x80) * 0x1000 +
                      (b2 - 0x80) * 0x40 + (b3 - 0x80)) ::
                    utf8DecodeReplace r3
                else 0xFFFD :: utf8DecodeReplace r2
            else 0xFFFD :: utf8DecodeReplace r1
        else 0xFFFD :: utf8DecodeReplace rest
    else 0xFFFD :: utf8DecodeReplace rest
termination_by l => l.length
decreasing_by all_goals (subst_vars; simp [List.length_cons]; try omega)

/-- `Buffer.byteLength(text, 'utf8')` on the code-point model. -/
def utf8ByteLength (cs : List Nat) : Nat := (utf8Encode cs).length

/-- `Buffer.from(text,'utf8').slice(0, limit).toString('utf8')`. -/
def bufferSliceDecode (cs : List Nat) (limit : Nat) : List Nat :=
  utf8DecodeReplace ((utf8Encode cs).take limit)

/-- The text-truncation step of analyzeSentimentForTerm and of the
first-run key-phrase block: truncate only when the UTF-8 byte length
exceeds MAX_COMPREHEND_BYTES. -/
def truncateForComprehendCp (cs : List Nat) : List Nat :=
  if utf8ByteLength cs > MAX_COMPREHEND_BYTES then
    bufferSliceDecode cs MAX_COMPREHEND_BYTES
  else cs

/-- Code points of a Lean string. -/
def strCodepoints (s : String) : List Nat := s.toList.map Char.toNat

/-- Rebuild a string from code points (valid scalars map to themselves). -/
def codepointsToStr (cs : List Nat) : String := String.mk (cs.map Char.ofNat)

/-- String-level wrapper used by the handler model. -/
def truncateForComprehend (s : String) : String :=
  codepointsToStr (truncateForComprehendCp (strCodepoints s))

/-! ### JavaScript string length (UTF-16 code units) -/

/-- Number of UTF-16 code units of one code point. -/
def utf16Units (c : Nat) : Nat := if 0x10000 ≤ c then 2 else 1

/-- JavaScript `String.prototype.length` (UTF-16 code units). -/
def jsLength (s : String) : Nat :=
  (s.toList.map (fun c => utf16Units c.toNat)).sum

/-- JavaScript `String.prototype.trim()`: strip leading and trailing
whitespace, modelled on the character list. -/
def jsTrim (s : String) : String :=
  String.mk
    (((s.toList.dropWhile Char.isWhitespace).reverse.dropWhile
        Char.isWhitespace).reverse)

/-- JavaScript `String.prototype.toLowerCase()`, modelled on the
character list (ASCII case mapping, as in `Char.toLower`). -/
def jsToLower (s : String) : String := String.mk (s.toList.map Char.toLower)

/-- JavaScript `substring(0, n)` (counting UTF-16 code units).  A
surrogate pair split exactly at the boundary would leave a lone
surrogate in JavaScript; lone surrogates are not representable as
Lean characters, so the split pair is dropped here. -/
def jsTake16 : Nat → List Char → List Char
  | _, [] => []
  | budget, c :: rest =>
    let u := utf16Units c.toNat
    if u ≤ budget then c :: jsTake16 (budget - u) rest else []

/-! ### Posts, scoring, and analyzeSentimentForTerm -/

/-- The four Comprehend confidence scores; each field is optional in
the SDK response type. -/
structure SentimentScores where
  positive : Option Rat
  negative : Option Rat
  neutral : Option Rat
  mixed : Option Rat
  deriving Repr, DecidableEq

/-- Outcome of one DetectSentiment call: the call throws, or returns
an optional sentiment label and optional score record. -/
inductive ScoreOutcome where
  | err (msg : String)
  | ok (sentiment : Option String) (scores : Option SentimentScores)
  deriving Repr, DecidableEq

/-- A feed-search post together with the oracles describing what the
external scorer and key-phrase extractor would return for its text. -/
structure Post where
  uri : String
  text : Option String
  score : ScoreOutcome
  keyPhrases : Except String (List String)
  deriving Repr

/-- The sentimentAnalysis record attached to a post. -/
structure PostAnalysis where
  sentiment : Option String
  scores : Option SentimentScores
  errMsg : Option String
  deriving Repr, DecidableEq

/-- How the per-post try/catch turns a scorer outcome into the
attached analysis record. -/
def scoreOutcomeToAnalysis : ScoreOutcome → PostAnalysis
  | ScoreOutcome.err m => ⟨none, none, some m⟩
  | ScoreOutcome.ok s sc => ⟨s, sc, none⟩

/-- JavaScript truthiness of an optional string. -/
def strTruthy : Option String → Bool
  | none => false
  | some s => decide (s ≠ "")

/-- JavaScript falsiness of the optional error message
(`!p.sentimentAnalysis.error`). -/
def errFalsy : Option String → Bool
  | none => true
  | some s => decide (s = "")

/-- The guard `if (!postText || postText.trim() === '') return` :
a post is analyzed only when its text is present and non-blank. -/
def hasText (p : Post) : Bool :=
  match p.text with
  | none => false
  | some t => decide (t ≠ "") && decide (jsTrim t ≠ "")

/-- The text of a post (empty when absent; only used under hasText). -/
def postTextOf (p : Post) : String :=
  match p.text with
  | none => ""
  | some t => t

/-- `scores?.X || 0` : missing score record or missing field reads 0. -/
def scoreField (sc : Option SentimentScores)
    (f : SentimentScores → Option Rat) : Rat :=
  match sc with
  | none => 0
  | some r =>
    match f r with
    | none => 0
    | some q => q

/-- The aggregation guard in analyzeSentimentForTerm:
`p.sentimentAnalysis && !p.sentimentAnalysis.error && p.sentimentAnalysis.sentiment`. -/
def countable : Option PostAnalysis → Bool
  | none => false
  | some a => errFalsy a.errMsg && strTruthy a.sentiment

/-- A post is successfully scored when it has non-blank text, its
scoring call did not throw, and the returned label is truthy. -/
def successfullyScored (p : Post) : Bool :=
  hasText p &&
    (match p.score with
     | ScoreOutcome.err _ => false
     | ScoreOutcome.ok s _ => strTruthy s)

/-- The mutable accumulators of the forEach aggregation loop. -/
structure Agg where
  positivePosts : Nat
  negativePosts : Nat
  neutralPosts : Nat
  mixedPosts : Nat
  totalPositiveScore : Rat
  totalNegativeScore : Rat
  totalNeutralScore : Rat
  totalMixedScore : Rat
  analyzedCount : Nat
  deriving Repr, DecidableEq

def Agg.init : Agg := ⟨0, 0, 0, 0, 0, 0, 0, 0, 0⟩

/-- One forEach step of the aggregation loop. -/
def aggStep (a : Agg) (x : Option PostAnalysis) : Agg :=
  match x with
  | none => a
  | some an =>
    if countable (some an) then
      { positivePosts :=
          a.positivePosts + (if an.sentiment = some ("POSITIVE") then 1 else 0)
        negativePosts :=
          a.negativePosts + (if an.sentiment = some ("NEGATIVE") then 1 else 0)
        neutralPosts :=
          a.neutralPosts + (if an.sentiment = some ("NEUTRAL") then 1 else 0)
        mixedPosts :=
          a.mixedPosts + (if an.sentiment = some ("MIXED") then 1 else 0)
        totalPositiveScore :=
          a.totalPositiveScore + scoreField an.scores SentimentScores.positive
        totalNegativeScore :=
          a.totalNegativeScore + scoreField an.scores SentimentScores.negative
        totalNeutralScore :=
          a.totalNeutralScore + scoreField an.scores SentimentScores.neutral
        totalMixedScore :=
          a.totalMixedScore + scoreField an.scores SentimentScores.mixed
        analyzedCount := a.analyzedCount + 1 }
    else a

/-- The per-interval summary computed by analyzeSentimentForTerm
(the wall-clock timestamp field is omitted from the model). -/
structure SentimentSummary where
  queryId : Nat
  topic : String
  totalPostsAnalyzed : Nat
  positivePosts : Nat
  negativePosts : Nat
  neutralPosts : Nat
  mixedPosts : Nat
  avgPositiveScore : Rat
  avgNegativeScore : Rat
  avgNeutralScore : Rat
  avgMixedScore : Rat
  deriving Repr, DecidableEq

/-- The per-post analysis attached by the Promise.all map: posts with
blank text are returned without a sentimentAnalysis record. -/
def postSentimentAnalysis (p : Post) : Option PostAnalysis :=
  if hasText p then some (scoreOutcomeToAnalysis p.score) else none

/-- Result of analyzeSentimentForTerm: the summary (null on search
error, zero posts, or zero analyzable posts), the original posts, and
the texts submitted to the scorer. -/
structure AnalyzeResult where
  summary : Option SentimentSummary
  posts : List Post
  scoreCalls : List String
  deriving Repr

/-- Model of analyzeSentimentForTerm: search, per-post scoring with
byte-safe truncation, and aggregation over successfully scored posts.
A search error is caught and yields a null summary with no posts. -/
def analyzeSentimentForTerm (queryIdForContext : Nat) (term : String)
    (searchOutcome : Except String (List Post)) : AnalyzeResult :=
  match searchOutcome with
  | Except.error _ => ⟨none, [], []⟩
  | Except.ok posts =>
    if posts.length = 0 then ⟨none, [], []⟩
    else
      let calls := posts.filterMap fun p =>
        if hasText p then some (truncateForComprehend (postTextOf p)) else none
      let analyses := posts.map postSentimentAnalysis
      let agg := analyses.foldl aggStep Agg.init
      if agg.analyzedCount = 0 then ⟨none, posts, calls⟩
      else
        ⟨some
          { queryId := queryIdForContext
            topic := term
            totalPostsAnalyzed := agg.analyzedCount
            positivePosts := agg.positivePosts
            negativePosts := agg.negativePosts
            neutralPosts := agg.neutralPosts
            mixedPosts := agg.mixedPosts
            avgPositiveScore :=
              if agg.analyzedCount > 0 then
                agg.totalPositiveScore / (agg.analyzedCount : Rat)
              else 0
            avgNegativeScore :=
              if agg.analyzedCount > 0 then
                agg.totalNegativeScore / (agg.analyzedCount : Rat)
              else 0
            avgNeutralScore :=
              if agg.analyzedCount > 0 then
                agg.totalNeutralScore / (agg.analyzedCount : Rat)
              else 0
            avgMixedScore :=
              if agg.analyzedCount > 0 then
                agg.totalMixedScore / (agg.analyzedCount : Rat)
              else 0 },
          posts, calls⟩

/-! ### getSubtopics -/

/-- JSON values, as far as the payload inspection in getSubtopics
discriminates them (numbers restricted to integers: only status codes
are inspected numerically). -/
inductive Json where
  | str (s : String)
  | num (n : Int)
  | bool (b : Bool)
  | null
  | arr (xs : List Json)
  | obj (fields : List (String × Json))
  deriving Repr

/-- What the invocation of the getSubtopic Lambda produced, as the
calling code discriminates it: the send call threw, the function
returned a FunctionError, no payload came back, the payload string
did not parse as JSON, or it parsed to a JSON value. -/
inductive LambdaInvokeResult where
  | invokeError (msg : String)
  | functionError (msg : String)
  | noPayload
  | unparseablePayload
  | payload (j : Json)
  deriving Repr

/-- `Array.isArray(x) && x.every(item => typeof item === 'string')`. -/
def isStringArray : Json → Bool
  | Json.arr xs =>
    xs.all fun j => match j with | Json.str _ => true | _ => false
  | _ => false

/-- The strings of an all-string JSON array. -/
def jsonStrings (xs : List Json) : List String :=
  xs.filterMap fun j => match j with | Json.str s => some s | _ => none

/-- Property access `x.field` (undefined on non-objects; JavaScript
coercions for exotic receivers are not modelled). -/
def jsonField (j : Json) (k : String) : Option Json :=
  match j with
  | Json.obj fields => fields.lookup k
  | _ => none

/-- `statusCode === 200 || (statusCode >= 200 && statusCode < 300)`;
non-numeric status codes are treated as failing the comparison
(JavaScript string-to-number coercion is not modelled). -/
def statusCode2xx (v : Option Json) : Bool :=
  match v with
  | some (Json.num n) =>
    decide (n = 200) || (decide (200 ≤ n) && decide (n < 300))
  | _ => false

/-- Extraction of `item?.Subtopic` entries from a parsed body array:
keep only string fields with non-blank trim. -/
def subtopicEntries (xs : List Json) : List String :=
  xs.filterMap fun item =>
    match jsonField item ("Subtopic") with
    | some (Json.str s) => if jsTrim s ≠ "" then some s else none
    | _ => none

/-- Model of getSubtopics.  `parse` stands for `JSON.parse` applied to
the stringified body (an oracle: the claims hold for every parse
function).  Every failure shape collapses to the empty list; the
third scenario in the source (body as a string array) repeats the
second scenario's condition and is unreachable. -/
def getSubtopics (parse : String → Option Json) :
    LambdaInvokeResult → List String
  | LambdaInvokeResult.invokeError _ => []
  | LambdaInvokeResult.functionError _ => []
  | LambdaInvokeResult.noPayload => []
  | LambdaInvokeResult.unparseablePayload => []
  | LambdaInvokeResult.payload j =>
    if isStringArray j then
      (jsonStrings (match j with | Json.arr xs => xs | _ => [])).filter
        fun s => decide (s ≠ "") && decide (jsTrim s ≠ "")
    else
      match jsonField j ("body") with
      | some (Json.str body) =>
        if statusCode2xx (jsonField j ("statusCode")) then
          match parse body with
          | some (Json.arr xs) => subtopicEntries xs
          | some _ => []
          | none => []
        else []
      | _ => []

/-! ### First-run key-phrase aggregation and subtopic selection -/

/-- Key phrases attached to a post by the first-run Promise.all map:
blank-text posts get no analysis; an errored extraction is skipped by
the aggregation guard (an empty-string error message would pass the
guard with an empty phrase list, adding nothing, so both are `none`).
Returned phrase texts go through `.map(kp => kp.Text ?? '').filter(t => t)`. -/
def postKeyPhrases (p : Post) : Option (List String) :=
  if hasText p then
    match p.keyPhrases with
    | Except.ok ps => some (ps.filter fun t => decide (t ≠ ""))
    | Except.error _ => none
  else none

/-- `phraseCounts[np] = (phraseCounts[np] || 0) + 1` on an
insertion-ordered association list (JavaScript object keys preserve
insertion order). -/
def bumpPhrase (m : List (String × Nat)) (np : String) :
    List (String × Nat) :=
  if m.any fun e => e.1 = np then
    m.map fun e => if e.1 = np then (e.1, e.2 + 1) else e
  else m ++ [(np, 1)]

/-- One phrase of the aggregation loop: normalize, apply the
length/triviality/main-topic filter, and count. -/
def phraseStep (normalizedMainTopic : String) (m : List (String × Nat))
    (phrase : String) : List (String × Nat) :=
  let np := jsTrim (jsToLower phrase)
  if np ≠ "" ∧ 2 < jsLength np ∧ np ≠ normalizedMainTopic then
    bumpPhrase m np
  else m

/-- One post of the aggregation loop: posts whose key-phrase analysis
is absent or errored contribute nothing. -/
def postPhraseStep (normalizedMainTopic : String) (m : List (String × Nat))
    (p : Post) : List (String × Nat) :=
  match postKeyPhrases p with
  | none => m
  | some ps => ps.foldl (phraseStep normalizedMainTopic) m

/-- Aggregation of normalized key phrases over the first-run posts,
with the length/triviality/main-topic filter from the source. -/
def collectPhraseCounts (normalizedMainTopic : String)
    (posts : List Post) : List (String × Nat) :=
  posts.foldl (postPhraseStep normalizedMainTopic) []

/-- Stable insertion of one entry into a count-descending list
(`sort(([,a],[,b]) => b - a)` with a stable sort). -/
def insertByCountDesc (x : String × Nat) :
    List (String × Nat) → List (String × Nat)
  | [] => [x]
  | y :: ys => if y.2 < x.2 then x :: y :: ys else y :: insertByCountDesc x ys

/-- Stable sort by descending count: elements are inserted left to
right, each landing after the entries with a greater or equal count,
so ties keep insertion order as in the (stable) JavaScript sort. -/
def sortByCountDesc (l : List (String × Nat)) : List (String × Nat) :=
  l.foldl (fun sorted x => insertByCountDesc x sorted) []

/-- Take the top SUBTOPIC_COUNT + 1 phrases, filter out the main topic
case-insensitively, then take the top SUBTOPIC_COUNT. -/
def selectSubtopics (mainTopic : String)
    (phraseCounts : List (String × Nat)) : List String :=
  let sortedPhrases := sortByCountDesc phraseCounts
  let potentialSubtopics :=
    (sortedPhrases.take (SUBTOPIC_COUNT + 1)).map Prod.fst
  let normalizedMainTopic := jsTrim (jsToLower mainTopic)
  (potentialSubtopics.filter
      fun phrase =>
        decide (jsTrim (jsToLower phrase) ≠ normalizedMainTopic)).take
    SUBTOPIC_COUNT

/-- Model of triggerAddSubtopicLambda: the payload sent to the
addSubtopic Lambda, or none when the (truncated) label is empty.
Invocation errors are caught and change nothing observable. -/
def triggerAddSubtopicLambda (queryId : Nat) (subtopic : String) :
    Option (Nat × String) :=
  let truncatedSubtopic :=
    if jsLength subtopic > MAX_SUBTOPIC_LENGTH then
      String.mk (jsTake16 MAX_SUBTOPIC_LENGTH subtopic.toList)
    else subtopic
  if truncatedSubtopic = "" then none
  else some (queryId, truncatedSubtopic)

/-- The first-run key-phrase / subtopic-discovery block: the texts
submitted to the extractor and the registration payloads issued. -/
def firstRunDiscovery (queryId : Nat) (mainTopic : String)
    (posts : List Post) : List String × List (Nat × String) :=
  let kpCalls := posts.filterMap fun p =>
    if hasText p then some (truncateForComprehend (postTextOf p)) else none
  let normalizedMainTopic := jsTrim (jsToLower mainTopic)
  let phraseCounts := collectPhraseCounts normalizedMainTopic posts
  let finalSubtopics := selectSubtopics mainTopic phraseCounts
  (kpCalls, finalSubtopics.filterMap (triggerAddSubtopicLambda queryId))

/-! ### Stores, topic record, world and effects -/

/-- A Result Store record, as written by storeAnalysisResults and
storeSubtopicAnalysisResults (the DataID counter value and timestamps
are omitted; `isSubtopic` is optional because records written by the
legacy deployed variant carry no IsSubtopic attribute). -/
structure ResultRecord where
  queryID : Nat
  topic : String
  mainTopic : Option String
  isSubtopic : Option Bool
  postsAnalyzed : Nat
  positivePosts : Nat
  negativePosts : Nat
  neutralPosts : Nat
  mixedPosts : Nat
  avgPositiveScore : Rat
  avgNegativeScore : Rat
  avgNeutralScore : Rat
  avgMixedScore : Rat
  deriving Repr, DecidableEq

/-- The record written by storeAnalysisResults (IsSubtopic: false). -/
def storeAnalysisResults (s : SentimentSummary) : ResultRecord :=
  { queryID := s.queryId
    topic := s.topic
    mainTopic := none
    isSubtopic := some false
    postsAnalyzed := s.totalPostsAnalyzed
    positivePosts := s.positivePosts
    negativePosts := s.negativePosts
    neutralPosts := s.neutralPosts
    mixedPosts := s.mixedPosts
    avgPositiveScore := s.avgPositiveScore
    avgNegativeScore := s.avgNegativeScore
    avgNeutralScore := s.avgNeutralScore
    avgMixedScore := s.avgMixedScore }

/-- The record written by storeSubtopicAnalysisResults
(IsSubtopic: true, MainTopic carried for traceability). -/
def storeSubtopicAnalysisResults (s : SentimentSummary)
    (subtopic mainTopic : String) : ResultRecord :=
  { queryID := s.queryId
    topic := subtopic
    mainTopic := some mainTopic
    isSubtopic := some true
    postsAnalyzed := s.totalPostsAnalyzed
    positivePosts := s.positivePosts
    negativePosts := s.negativePosts
    neutralPosts := s.neutralPosts
    mixedPosts := s.mixedPosts
    avgPositiveScore := s.avgPositiveScore
    avgNegativeScore := s.avgNegativeScore
    avgNeutralScore := s.avgNeutralScore
    avgMixedScore := s.avgMixedScore }

/-- The run-count scan of the scheduled handler: records for this
QueryID with an IsSubtopic attribute present and equal to false. -/
def countMainRuns (queryId : Nat) (store : List ResultRecord) : Nat :=
  (store.filter fun r =>
      decide (r.queryID = queryId ∧ r.isSubtopic = some false)).length

/-- The run-count scan of the legacy compiled variant deployed by the
Terraform configuration (blueskyLambda.js): it filters on QueryID
only, with no IsSubtopic condition. -/
def countRunsLegacy (queryId : Nat) (store : List ResultRecord) : Nat :=
  (store.filter fun r => decide (r.queryID = queryId)).length

/-- The topic record fetched from the Queries table. -/
structure QueryDetails where
  queryID : Nat
  topic : String
  email : String
  numIntervals : Nat
  postsToAnalyze : Nat
  intervalLength : Nat
  intervalUnit : String
  status : Option String
  deriving Repr, DecidableEq

/-- Model of triggerEmailNotification: the emails published to the
notification topic (none when the record has no email address). -/
def triggerEmailNotification (queryDetails : QueryDetails) : List String :=
  if queryDetails.email = "" then [] else [queryDetails.email]

/-- Oracles for the external collaborators of one invocation. -/
structure World where
  queryDetails : Option QueryDetails
  store : List ResultRecord
  scanOk : Bool
  loginOk : Bool
  mainSearch : Except String (List Post)
  mainStoreOk : Bool
  subscribeOk : Bool
  parse : String → Option Json
  subtopicsResp : LambdaInvokeResult
  subSearch : String → Except String (List Post)
  subStoreOk : String → Bool

/-- The externally visible effects issued by one invocation. -/
structure Effects where
  searches : List String := []
  scoreCalls : List String := []
  keyPhraseCalls : List String := []
  mainRecords : List ResultRecord := []
  subRecords : List ResultRecord := []
  registered : List (Nat × String) := []
  subscribeCalls : List String := []
  notifyCalls : List Nat := []
  published : List String := []
  deletedTrigger : Bool := false
  deriving Repr, DecidableEq

/-- The JSON body returned for manual invocations. -/
structure HandlerOutput where
  mainStored : Bool
  runCountAfter : Nat
  intervalsNeeded : Nat
  deriving Repr, DecidableEq

/-- Fatal error outcomes that propagate to the invocation boundary. -/
inductive Fatal where
  | noQueryDetails
  | runCountScanFailed
  | loginFailed
  deriving Repr, DecidableEq

/-- Result of the guarded try block around main-topic analysis,
storage, owner subscription and first-run discovery.  A storage
failure is caught with nothing persisted; a subscription failure
is caught after the record and flag were already set. -/
structure MainPhase where
  stored : Bool
  records : List ResultRecord
  subscribeCalls : List String
  kpCalls : List String
  registered : List (Nat × String)
  deriving Repr, DecidableEq

/-- The main-topic try block of the handler. -/
def mainTopicPhase (w : World) (queryId : Nat) (queryDetails : QueryDetails)
    (currentRunCount : Nat) (mainRes : AnalyzeResult) : MainPhase :=
  match mainRes.summary with
  | none => ⟨false, [], [], [], []⟩
  | some s =>
    if w.mainStoreOk = false then ⟨false, [], [], [], []⟩
    else
      let written := storeAnalysisResults s
      if currentRunCount = 0 then
        if w.subscribeOk = false then
          ⟨true, [written], [queryDetails.email], [], []⟩
        else if mainRes.posts.length > 0 then
          let disc := firstRunDiscovery queryId queryDetails.topic mainRes.posts
          ⟨true, [written], [queryDetails.email], disc.1, disc.2⟩
        else ⟨true, [written], [queryDetails.email], [], []⟩
      else ⟨true, [written], [], [], []⟩

/-- Outcome of one iteration of the subsequent-run subtopic loop:
the record written for this subtopic, or none when its search errored,
nothing was analyzable, or its storage call failed (each caught at
the per-subtopic scope).  It reads only this subtopic's oracles. -/
def subtopicOutcome (w : World) (queryId : Nat) (mainTopic : String)
    (subtopic : String) : Option ResultRecord :=
  let r := analyzeSentimentForTerm queryId subtopic (w.subSearch subtopic)
  match r.summary with
  | some s =>
    if w.subStoreOk subtopic then
      some (storeSubtopicAnalysisResults s subtopic mainTopic)
    else none
  | none => none

/-- Model of the scheduled Lambda handler after event parsing: the
entry guards, the fresh run-count scan, the early-completion exit,
main-topic analysis, the first-run and subsequent-run branches, and
finalization.  Environment configuration (table names, credentials)
is taken as given. -/
def handler (w : World) (queryId : Nat) :
    Except Fatal (Effects × Option HandlerOutput) :=
  match w.queryDetails with
  | none => Except.error Fatal.noQueryDetails
  | some queryDetails =>
    if queryDetails.status = some ("COMPLETED") ∨
        queryDetails.status = some ("CANCELLED") then
      Except.ok ({ deletedTrigger := true }, none)
    else if w.scanOk = false then Except.error Fatal.runCountScanFailed
    else
      let currentRunCount := countMainRuns queryId w.store
      if currentRunCount ≥ queryDetails.numIntervals then
        Except.ok
          ({ notifyCalls := [queryDetails.queryID]
             published := triggerEmailNotification queryDetails
             deletedTrigger := true }, none)
      else if w.loginOk = false then Except.error Fatal.loginFailed
      else
        let mainTopic := queryDetails.topic
        let mainRes := analyzeSentimentForTerm queryId mainTopic w.mainSearch
        let phase := mainTopicPhase w queryId queryDetails currentRunCount mainRes
        let subtopics :=
          if currentRunCount > 0 then getSubtopics w.parse w.subtopicsResp
          else []
        let subRecords := subtopics.filterMap (subtopicOutcome w queryId mainTopic)
        let subScoreCalls :=
          (subtopics.map fun s =>
              (analyzeSentimentForTerm queryId s (w.subSearch s)).scoreCalls).flatten
        let effectiveRunCount :=
          currentRunCount + (if phase.stored then 1 else 0)
        let finalize := effectiveRunCount ≥ queryDetails.numIntervals
        Except.ok
          ({ searches := mainTopic :: subtopics
             scoreCalls := mainRes.scoreCalls ++ subScoreCalls
             keyPhraseCalls := phase.kpCalls
             mainRecords := phase.records
             subRecords := subRecords
             registered := phase.registered
             subscribeCalls := phase.subscribeCalls
             notifyCalls := if finalize then [queryDetails.queryID] else []
             published :=
               if finalize then triggerEmailNotification queryDetails else []
             deletedTrigger := finalize },
           some
             { mainStored := phase.stored
               runCountAfter := effectiveRunCount
               intervalsNeeded := queryDetails.numIntervals })

/-! ### Concrete inputs for witnesses and counterexamples -/

/-- A post that scores POSITIVE with full confidence. -/
def postPos : Post :=
  { uri := "at://p1"
    text := some ("solar power is great")
    score := ScoreOutcome.ok (some ("POSITIVE")) (some ⟨some 1, some 0, some 0, some 0⟩)
    keyPhrases := Except.ok ["solar power", "panel prices"] }

/-- A post whose scoring call throws. -/
def postErr : Post :=
  { uri := "at://p2"
    text := some ("broken")
    score := ScoreOutcome.err ("throttled")
    keyPhrases := Except.error ("throttled") }

/-- A post with blank text (never submitted for scoring). -/
def postBlank : Post :=
  { uri := "at://p3"
    text := some (" ")
    score := ScoreOutcome.ok (some ("NEGATIVE")) none
    keyPhrases := Except.ok [] }

/-- A two-interval topic record. -/
def demoDetails : QueryDetails :=
  { queryID := 7
    topic := "solar"
    email := "owner@example.com"
    numIntervals := 2
    postsToAnalyze := 25
    intervalLength := 1
    intervalUnit := "hours"
    status := none }

/-- A baseline world for a first-interval invocation. -/
def baseWorld : World :=
  { queryDetails := some demoDetails
    store := []
    scanOk := true
    loginOk := true
    mainSearch := Except.ok [postPos, postErr, postBlank]
    mainStoreOk := true
    subscribeOk := true
    parse := fun _ => none
    subtopicsResp := LambdaInvokeResult.noPayload
    subSearch := fun _ => Except.error ("offline")
    subStoreOk := fun _ => true }

/-- A stored first-interval main-topic record for QueryID 7. -/
def mainRec7 : ResultRecord :=
  { queryID := 7
    topic := "solar"
    mainTopic := none
    isSubtopic := some false
    postsAnalyzed := 1
    positivePosts := 1
    negativePosts := 0
    neutralPosts := 0
    mixedPosts := 0
    avgPositiveScore := 1
    avgNegativeScore := 0
    avgNeutralScore := 0
    avgMixedScore := 0 }

/-- Topic record for the C1 witness: a single-interval topic. -/
def dC1 : QueryDetails := { demoDetails with numIntervals := 1 }

/-- World for the C1 witness: the single interval already stored, the
invocation redelivered. -/
def wC1 : World := { baseWorld with queryDetails := some dC1, store := [mainRec7] }

/-- World for a first-interval invocation whose main search returns
zero posts (Scenario C). -/
def wC5 : World := { baseWorld with mainSearch := Except.ok [] }

/-- World for a subsequent-interval invocation whose getSubtopic
invocation returns no payload. -/
def wC10 : World :=
  { baseWorld with
    store := [mainRec7]
    subtopicsResp := LambdaInvokeResult.noPayload }

/-- World for a subsequent-interval invocation with one failing and
one succeeding subtopic. -/
def wC8 : World :=
  { baseWorld with
    store := [mainRec7]
    subtopicsResp := LambdaInvokeResult.payload
      (Json.arr [Json.str ("solar panels"), Json.str ("badsub")])
    subSearch := fun s =>
      if s = "badsub" then Except.error ("boom") else Except.ok [postPos]
    subStoreOk := fun _ => true }

/-- A 255-character label. -/
def aStr255 : String := String.mk (List.replicate 255 'a')

/-- A 256-character phrase extending aStr255 by one character. -/
def aStr256 : String := String.mk (List.replicate 256 'a')

/-- Topic record whose normalized topic is exactly 255 characters. -/
def dC7 : QueryDetails := { demoDetails with topic := aStr255 }

/-- A post whose extracted key phrase is the 256-character phrase. -/
def postC7 : Post :=
  { uri := "at://c7"
    text := some ("interesting")
    score := ScoreOutcome.ok (some ("POSITIVE")) none
    keyPhrases := Except.ok [aStr256] }

/-- World for the C7 counterexample: first interval, one post whose
dominant phrase properly extends the 255-character main topic. -/
def wC7 : World :=
  { baseWorld with
    queryDetails := some dC7
    mainSearch := Except.ok [postC7] }

/-- A subtopic-tagged Result record for QueryID 1. -/
def subRecC3 : ResultRecord :=
  { queryID := 1
    topic := "panel prices"
    mainTopic := some ("solar")
    isSubtopic := some true
    postsAnalyzed := 1
    positivePosts := 0
    negativePosts := 1
    neutralPosts := 0
    mixedPosts := 0
    avgPositiveScore := 0
    avgNegativeScore := 1
    avgNeutralScore := 0
    avgMixedScore := 0 }

/-- The sentiment of an optional analysis record. -/
def sentimentOf : Option PostAnalysis → Option String
  | none => none
  | some an => an.sentiment

/-- The score field read from an optional analysis record. -/
def scoreOf : Option PostAnalysis → (SentimentScores → Option Rat) → Rat
  | none, _ => 0
  | some an, f => scoreField an.scores f

/-- The label the scorer returned for a post (none when it threw). -/
def sentimentLabel (p : Post) : Option String :=
  (scoreOutcomeToAnalysis p.score).sentiment

/-- The confidence score contributed by a post to an average. -/
def postScore (p : Post) (f : SentimentScores → Option Rat) : Rat :=
  scoreField (scoreOutcomeToAnalysis p.score).scores f

/-! ### Helper lemmas -/

/-- The try block sets the stored flag exactly when it persisted the
main-topic record. -/
theorem mainTopicPhase_stored_iff (w : World) (queryId : Nat)
    (d : QueryDetails) (c : Nat) (r : AnalyzeResult) :
    (mainTopicPhase w queryId d c r).stored = true ↔
      (mainTopicPhase w queryId d c r).records ≠ [] := by
  unfold mainTopicPhase
  rcases r.summary with _ | s <;> simp <;> split_ifs <;> simp

/-- Unfolding the forEach aggregation loop into filters and sums. -/
theorem foldl_aggStep_spec (l : List (Option PostAnalysis)) (a : Agg) :
    l.foldl aggStep a =
      { positivePosts := a.positivePosts +
          (l.filter fun x => countable x &&
            decide (sentimentOf x = some ("POSITIVE"))).length
        negativePosts := a.negativePosts +
          (l.filter fun x => countable x &&
            decide (sentimentOf x = some ("NEGATIVE"))).length
        neutralPosts := a.neutralPosts +
          (l.filter fun x => countable x &&
            decide (sentimentOf x = some ("NEUTRAL"))).length
        mixedPosts := a.mixedPosts +
          (l.filter fun x => countable x &&
            decide (sentimentOf x = some ("MIXED"))).length
        totalPositiveScore := a.totalPositiveScore +
          ((l.filter countable).map fun x => scoreOf x SentimentScores.positive).sum
        totalNegativeScore := a.totalNegativeScore +
          ((l.filter countable).map fun x => scoreOf x SentimentScores.negative).sum
        totalNeutralScore := a.totalNeutralScore +
          ((l.filter countable).map fun x => scoreOf x SentimentScores.neutral).sum
        totalMixedScore := a.totalMixedScore +
          ((l.filter countable).map fun x => scoreOf x SentimentScores.mixed).sum
        analyzedCount := a.analyzedCount + (l.filter countable).length } := by
  induction l generalizing a with
  | nil => simp
  | cons x t ih =>
    rw [List.foldl_cons, ih]
    rcases x with _ | an
    · simp [aggStep, countable, List.filter_cons, sentimentOf]
    · by_cases hc : countable (some an) = true
      · simp [aggStep, hc, List.filter_cons, Agg.mk.injEq, sentimentOf, scoreOf]
        refine ⟨?_, ?_, ?_, ?_, ?_, ?_, ?_, ?_, ?_⟩ <;>
          first
          | (split_ifs <;> simp [List.length_cons] <;> first | omega | ring)
          | omega
          | ring
      · have hcf : countable (some an) = false := by
          simpa using hc
        simp [aggStep, hcf, List.filter_cons, sentimentOf]

/-- The aggregation guard on the attached analysis coincides with the
successfully-scored predicate on the post. -/
theorem countable_postSentimentAnalysis (p : Post) :
    countable (postSentimentAnalysis p) = successfullyScored p := by
  by_cases ht : hasText p = true
  · cases hsc : p.score <;>
      simp [countable, postSentimentAnalysis, successfullyScored,
        scoreOutcomeToAnalysis, errFalsy, strTruthy, ht, hsc]
  · have ht2 : hasText p = false := by simpa using ht
    simp [countable, postSentimentAnalysis, successfullyScored, ht2]

/-- Filtering the attached analyses by the guard is filtering the
posts by the successfully-scored predicate. -/
theorem filter_countable_map (posts : List Post) :
    (posts.map postSentimentAnalysis).filter countable =
      (posts.filter successfullyScored).map postSentimentAnalysis := by
  rw [List.filter_map]
  congr 1
  apply List.filter_congr
  intro p _
  exact countable_postSentimentAnalysis p

/-- Per-label filtering of the attached analyses, on the post side. -/
theorem filter_label_map (posts : List Post) (L : String) :
    ((posts.map postSentimentAnalysis).filter fun x =>
        countable x && decide (sentimentOf x = some L)) =
      ((posts.filter fun p =>
          successfullyScored p && decide (sentimentLabel p = some L)).map
        postSentimentAnalysis) := by
  rw [List.filter_map]
  congr 1
  apply List.filter_congr
  intro p _
  by_cases ht : hasText p = true
  · have hpsa : postSentimentAnalysis p = some (scoreOutcomeToAnalysis p.score) := by
      simp [postSentimentAnalysis, ht]
    simp [Function.comp, postSentimentAnalysis, ht, sentimentOf, sentimentLabel]
    rw [← hpsa, countable_postSentimentAnalysis]
  · have ht2 : hasText p = false := by simpa using ht
    have h1 : successfullyScored p = false := by simp [successfullyScored, ht2]
    simp [Function.comp, countable, postSentimentAnalysis, ht2, h1, sentimentOf]

/-- Score sums over attached analyses, on the post side. -/
theorem sum_scores_map (posts : List Post) (f : SentimentScores → Option Rat) :
    ((posts.filter successfullyScored).map
        fun p => scoreOf (postSentimentAnalysis p) f).sum =
      ((posts.filter successfullyScored).map fun p => postScore p f).sum := by
  apply congrArg
  apply List.map_congr_left
  intro p hp
  have hs : successfullyScored p = true := List.of_mem_filter hp
  have ht : hasText p = true := by
    have h2 := hs
    simp only [successfullyScored, Bool.and_eq_true] at h2
    exact h2.1
  simp [scoreOf, postSentimentAnalysis, ht, postScore]

/-! ### Claim theorems -/

/-- C1: when the topic record exists, its status is neither COMPLETED
nor CANCELLED, and the run count computed at entry already reaches
numIntervals, the handler dispatches the completion notification,
issues the trigger-delete call, and returns without any feed search,
sentiment scoring, key-phrase extraction, Result Store write,
subtopic registration, or subscription. -/
theorem handler_earlyExit_C1 (w : World) (queryId : Nat) (d : QueryDetails)
    (hd : w.queryDetails = some d)
    (hs1 : d.status ≠ some ("COMPLETED"))
    (hs2 : d.status ≠ some ("CANCELLED"))
    (hscan : w.scanOk = true)
    (hrc : countMainRuns queryId w.store ≥ d.numIntervals) :
    ∃ e, handler w queryId = Except.ok (e, none) ∧
      e.notifyCalls = [d.queryID] ∧
      e.published = triggerEmailNotification d ∧
      e.deletedTrigger = true ∧
      e.searches = [] ∧
      e.scoreCalls = [] ∧
      e.keyPhraseCalls = [] ∧
      e.mainRecords = [] ∧
      e.subRecords = [] ∧
      e.registered = [] ∧
      e.subscribeCalls = [] := by
  have h : handler w queryId =
      Except.ok
        ({ notifyCalls := [d.queryID]
           published := triggerEmailNotification d
           deletedTrigger := true }, none) := by
    simp [handler, hd, hs1, hs2, hscan, hrc]
  exact ⟨_, h, rfl, rfl, rfl, rfl, rfl, rfl, rfl, rfl, rfl, rfl⟩

/-- Witness for C1 at a concrete redelivered final-interval world. -/
theorem handler_earlyExit_C1_witness :
    ∃ e, handler wC1 7 = Except.ok (e, none) ∧
      e.notifyCalls = [dC1.queryID] ∧
      e.published = triggerEmailNotification dC1 ∧
      e.deletedTrigger = true ∧
      e.searches = [] ∧
      e.scoreCalls = [] ∧
      e.keyPhraseCalls = [] ∧
      e.mainRecords = [] ∧
      e.subRecords = [] ∧
      e.registered = [] ∧
      e.subscribeCalls = [] :=
  handler_earlyExit_C1 wC1 7 dC1 rfl (by decide) (by decide) rfl (by decide)

/-- C2: every invocation that passes the entry guards ends with an
effective run count equal to the entry count plus one exactly when a
main-topic record was written (plus zero otherwise); the completion
notification dispatch and trigger deletion happen iff that effective
count reaches numIntervals, and an invocation that stores nothing
never deletes the trigger. -/
theorem handler_finalize_C2 (w : World) (queryId : Nat) (d : QueryDetails)
    (hd : w.queryDetails = some d)
    (hs1 : d.status ≠ some ("COMPLETED"))
    (hs2 : d.status ≠ some ("CANCELLED"))
    (hscan : w.scanOk = true)
    (hrc : countMainRuns queryId w.store < d.numIntervals)
    (hlogin : w.loginOk = true) :
    ∃ e o, handler w queryId = Except.ok (e, some o) ∧
      (o.mainStored = true ↔ e.mainRecords ≠ []) ∧
      o.runCountAfter =
        countMainRuns queryId w.store + (if o.mainStored then 1 else 0) ∧
      (e.notifyCalls ≠ [] ↔ d.numIntervals ≤ o.runCountAfter) ∧
      (e.deletedTrigger = true ↔ d.numIntervals ≤ o.runCountAfter) ∧
      (e.mainRecords = [] → e.deletedTrigger = false) := by
  have hnge : ¬ countMainRuns queryId w.store ≥ d.numIntervals :=
    Nat.not_le.mpr hrc
  simp only [handler, hd]
  rw [if_neg (by simp [hs1, hs2]), if_neg (by simp [hscan]), if_neg hnge,
    if_neg (by simp [hlogin])]
  refine ⟨_, _, rfl, ?_, rfl, ?_, ?_, ?_⟩
  · exact mainTopicPhase_stored_iff w queryId d (countMainRuns queryId w.store)
      (analyzeSentimentForTerm queryId d.topic w.mainSearch)
  · split_ifs <;> simp_all <;> omega
  · split_ifs <;> simp_all <;> omega
  · intro hempty
    have hrecords : (mainTopicPhase w queryId d (countMainRuns queryId w.store)
        (analyzeSentimentForTerm queryId d.topic w.mainSearch)).records = [] := hempty
    have hstored : (mainTopicPhase w queryId d (countMainRuns queryId w.store)
        (analyzeSentimentForTerm queryId d.topic w.mainSearch)).stored = false := by
      by_cases hst : (mainTopicPhase w queryId d (countMainRuns queryId w.store)
          (analyzeSentimentForTerm queryId d.topic w.mainSearch)).stored = true
      · exact absurd hrecords ((mainTopicPhase_stored_iff _ _ _ _ _).mp hst)
      · simpa using hst
    simp [hstored, hnge]

/-- Witness for C2 at a concrete first-interval world. -/
theorem handler_finalize_C2_witness :
    ∃ e o, handler baseWorld 7 = Except.ok (e, some o) ∧
      (o.mainStored = true ↔ e.mainRecords ≠ []) ∧
      o.runCountAfter =
        countMainRuns 7 baseWorld.store + (if o.mainStored then 1 else 0) ∧
      (e.notifyCalls ≠ [] ↔ demoDetails.numIntervals ≤ o.runCountAfter) ∧
      (e.deletedTrigger = true ↔ demoDetails.numIntervals ≤ o.runCountAfter) ∧
      (e.mainRecords = [] → e.deletedTrigger = false) :=
  handler_finalize_C2 baseWorld 7 demoDetails rfl (by decide) (by decide) rfl
    (by decide) rfl

/-- C3 (amended): the run count used by an invocation is recomputed
from the Result Store scanned at entry: the value reported after the
invocation is the entry scan count plus at most the one record stored
this run; under the scheduled coordinator scan, records tagged
isSubtopic = true (and records with no isSubtopic attribute) never
contribute, while main-topic records do.  The legacy deployed variant
instead counts every record for the queryId (see counterexample). -/
theorem runCount_fresh_C3 (w : World) (queryId : Nat)
    (store : List ResultRecord) (r : ResultRecord) :
    (∀ e o, handler w queryId = Except.ok (e, some o) →
      o.runCountAfter =
        countMainRuns queryId w.store + (if o.mainStored then 1 else 0)) ∧
    (r.isSubtopic = some true →
      countMainRuns queryId (r :: store) = countMainRuns queryId store) ∧
    (r.isSubtopic = none →
      countMainRuns queryId (r :: store) = countMainRuns queryId store) ∧
    (r.queryID = queryId → r.isSubtopic = some false →
      countMainRuns queryId (r :: store) = countMainRuns queryId store + 1) ∧
    (r.queryID = queryId →
      countRunsLegacy queryId (r :: store) = countRunsLegacy queryId store + 1) := by
  refine ⟨?_, ?_, ?_, ?_, ?_⟩
  · intro e o h
    unfold handler at h
    rcases hw : w.queryDetails with _ | d <;> simp only [hw] at h
    · exact absurd h (by simp)
    · by_cases h1 : d.status = some ("COMPLETED") ∨ d.status = some ("CANCELLED")
      · rw [if_pos h1] at h; simp at h
      · rw [if_neg h1] at h
        by_cases h2 : w.scanOk = false
        · rw [if_pos h2] at h; exact absurd h (by simp)
        · rw [if_neg h2] at h
          by_cases h3 : countMainRuns queryId w.store ≥ d.numIntervals
          · rw [if_pos h3] at h; simp at h
          · rw [if_neg h3] at h
            by_cases h4 : w.loginOk = false
            · rw [if_pos h4] at h; exact absurd h (by simp)
            · rw [if_neg h4] at h
              simp only [Except.ok.injEq, Prod.mk.injEq, Option.some.injEq] at h
              obtain ⟨he, ho⟩ := h
              rw [← ho]
  · intro h; simp [countMainRuns, List.filter, h]
  · intro h; simp [countMainRuns, List.filter, h]
  · intro h1 h2; simp [countMainRuns, List.filter, h1, h2]
  · intro h1; simp [countRunsLegacy, List.filter, h1]

/-- Witness for C3 at a concrete invocation and record. -/
theorem runCount_fresh_C3_witness :
    (∀ e o, handler baseWorld 7 = Except.ok (e, some o) →
      o.runCountAfter =
        countMainRuns 7 baseWorld.store + (if o.mainStored then 1 else 0)) ∧
    (subRecC3.isSubtopic = some true →
      countMainRuns 7 (subRecC3 :: [mainRec7]) = countMainRuns 7 [mainRec7]) ∧
    (subRecC3.isSubtopic = none →
      countMainRuns 7 (subRecC3 :: [mainRec7]) = countMainRuns 7 [mainRec7]) ∧
    (subRecC3.queryID = 7 → subRecC3.isSubtopic = some false →
      countMainRuns 7 (subRecC3 :: [mainRec7]) = countMainRuns 7 [mainRec7] + 1) ∧
    (subRecC3.queryID = 7 →
      countRunsLegacy 7 (subRecC3 :: [mainRec7]) = countRunsLegacy 7 [mainRec7] + 1) :=
  runCount_fresh_C3 baseWorld 7 [mainRec7] subRecC3

/-- The summary computed by analyzeSentimentForTerm, in closed
form over the successfully scored posts. -/
theorem analyze_summary_spec (queryId : Nat) (term : String)
    (posts : List Post) :
    (analyzeSentimentForTerm queryId term (Except.ok posts)).summary =
      (if (posts.filter successfullyScored).length = 0 then none
       else some
        { queryId := queryId
          topic := term
          totalPostsAnalyzed := (posts.filter successfullyScored).length
          positivePosts := (posts.filter fun p => successfullyScored p &&
            decide (sentimentLabel p = some ("POSITIVE"))).length
          negativePosts := (posts.filter fun p => successfullyScored p &&
            decide (sentimentLabel p = some ("NEGATIVE"))).length
          neutralPosts := (posts.filter fun p => successfullyScored p &&
            decide (sentimentLabel p = some ("NEUTRAL"))).length
          mixedPosts := (posts.filter fun p => successfullyScored p &&
            decide (sentimentLabel p = some ("MIXED"))).length
          avgPositiveScore :=
            ((posts.filter successfullyScored).map fun p =>
              postScore p SentimentScores.positive).sum /
              ((posts.filter successfullyScored).length : Rat)
          avgNegativeScore :=
            ((posts.filter successfullyScored).map fun p =>
              postScore p SentimentScores.negative).sum /
              ((posts.filter successfullyScored).length : Rat)
          avgNeutralScore :=
            ((posts.filter successfullyScored).map fun p =>
              postScore p SentimentScores.neutral).sum /
              ((posts.filter successfullyScored).length : Rat)
          avgMixedScore :=
            ((posts.filter successfullyScored).map fun p =>
              postScore p SentimentScores.mixed).sum /
              ((posts.filter successfullyScored).length : Rat) }) := by
  have hstep := foldl_aggStep_spec (posts.map postSentimentAnalysis) Agg.init
  have hcnt : (List.foldl aggStep Agg.init
      (posts.map postSentimentAnalysis)).analyzedCount =
      (posts.filter successfullyScored).length := by
    rw [hstep]
    simp [filter_countable_map, Agg.init]
  simp only [analyzeSentimentForTerm]
  by_cases hlen : posts.length = 0
  · have hnil : posts = [] := List.length_eq_zero.mp hlen
    subst hnil
    simp
  · rw [if_neg hlen, hcnt]
    by_cases hz : (posts.filter successfullyScored).length = 0
    · rw [if_pos hz, if_pos hz]
    · rw [if_neg hz, if_neg hz]
      have hpos : 0 < (posts.filter successfullyScored).length :=
        Nat.pos_of_ne_zero hz
      rw [hstep]
      simp [filter_label_map, filter_countable_map, sum_scores_map, hcnt,
        hpos, Agg.init, Function.comp_def]

/-- C6: the stored per-category counts and the four averages are
computed only over successfully scored posts: the summary is null iff
no post was successfully scored (so no Result record is written for
the term that interval); posts with blank text or a throwing scoring
call are never successfully scored; and each count and average ranges
exactly over the successfully scored posts, with the averages divided
by their number. -/
theorem analyze_aggregation_C6 (queryId : Nat) (term : String)
    (posts : List Post) :
    ((analyzeSentimentForTerm queryId term (Except.ok posts)).summary = none ↔
      posts.filter successfullyScored = []) ∧
    (∀ p : Post, hasText p = false → successfullyScored p = false) ∧
    (∀ (p : Post) (m : String), p.score = ScoreOutcome.err m →
      successfullyScored p = false) ∧
    (∀ s, (analyzeSentimentForTerm queryId term (Except.ok posts)).summary =
        some s →
      s.totalPostsAnalyzed = (posts.filter successfullyScored).length ∧
      s.positivePosts = (posts.filter fun p => successfullyScored p &&
        decide (sentimentLabel p = some ("POSITIVE"))).length ∧
      s.negativePosts = (posts.filter fun p => successfullyScored p &&
        decide (sentimentLabel p = some ("NEGATIVE"))).length ∧
      s.neutralPosts = (posts.filter fun p => successfullyScored p &&
        decide (sentimentLabel p = some ("NEUTRAL"))).length ∧
      s.mixedPosts = (posts.filter fun p => successfullyScored p &&
        decide (sentimentLabel p = some ("MIXED"))).length ∧
      s.avgPositiveScore =
        ((posts.filter successfullyScored).map fun p =>
          postScore p SentimentScores.positive).sum /
          ((posts.filter successfullyScored).length : Rat) ∧
      s.avgNegativeScore =
        ((posts.filter successfullyScored).map fun p =>
          postScore p SentimentScores.negative).sum /
          ((posts.filter successfullyScored).length : Rat) ∧
      s.avgNeutralScore =
        ((posts.filter successfullyScored).map fun p =>
          postScore p SentimentScores.neutral).sum /
          ((posts.filter successfullyScored).length : Rat) ∧
      s.avgMixedScore =
        ((posts.filter successfullyScored).map fun p =>
          postScore p SentimentScores.mixed).sum /
          ((posts.filter successfullyScored).length : Rat)) := by
  have hsummary := analyze_summary_spec queryId term posts
  refine ⟨?_, ?_, ?_, ?_⟩
  · rw [hsummary]
    by_cases hz : (posts.filter successfullyScored).length = 0
    · simp [hz, List.length_eq_zero.mp hz]
    · simp only [if_neg hz]
      constructor
      · intro h
        exact absurd h (by simp)
      · intro h
        exact absurd (by simp [h] : (posts.filter successfullyScored).length = 0) hz
  · intro p h
    simp [successfullyScored, h]
  · intro p m h
    simp [successfullyScored, h]
  · intro s hs
    rw [hsummary] at hs
    by_cases hz : (posts.filter successfullyScored).length = 0
    · rw [if_pos hz] at hs
      exact absurd hs (by simp)
    · rw [if_neg hz] at hs
      have hs2 := Option.some.inj hs
      subst hs2
      exact ⟨rfl, rfl, rfl, rfl, rfl, rfl, rfl, rfl, rfl⟩

/-- Witness for C6: a batch with one scored post, one post whose
scoring call throws, and one blank post. -/
theorem analyze_aggregation_C6_witness :
    ∃ s, (analyzeSentimentForTerm 7 "solar"
        (Except.ok [postPos, postErr, postBlank])).summary = some s ∧
      s.totalPostsAnalyzed =
        ([postPos, postErr, postBlank].filter successfullyScored).length ∧
      s.positivePosts = 1 ∧
      successfullyScored postErr = false ∧
      successfullyScored postBlank = false := by
  have h := analyze_aggregation_C6 7 "solar" [postPos, postErr, postBlank]
  have hfil : [postPos, postErr, postBlank].filter successfullyScored =
      [postPos] := rfl
  have hne : ¬ ((analyzeSentimentForTerm 7 "solar"
      (Except.ok [postPos, postErr, postBlank])).summary = none) := by
    rw [h.1, hfil]
    simp
  obtain ⟨s, hs⟩ := Option.ne_none_iff_exists'.mp hne
  refine ⟨s, hs, (h.2.2.2 s hs).1, ?_, ?_, ?_⟩
  · rw [(h.2.2.2 s hs).2.1]
    rfl
  · exact h.2.2.1 postErr ("throttled") rfl
  · exact h.2.1 postBlank rfl

/-- Counterexample for C3 as stated: the legacy deployed variant
(blueskyLambda.js) computes the run count with a scan filtered only
on QueryID, so a record tagged isSubtopic = true does contribute to
its count: on a store holding exactly one subtopic-tagged record for
QueryID 1 it computes 1, while the count of records with
isSubtopic = false is 0. -/
theorem runCount_legacy_C3_counterexample :
    countRunsLegacy 1 [subRecC3] = 1 ∧
    subRecC3.isSubtopic = some true ∧
    (List.filter
        (fun r => decide (r.queryID = 1 ∧ r.isSubtopic = some false))
        [subRecC3]).length = 0 := by
  decide

/-- The posts returned by analyzeSentimentForTerm on a non-empty
successful search are the searched posts. -/
theorem analyze_posts_eq (queryId : Nat) (term : String) (posts : List Post)
    (h : posts ≠ []) :
    (analyzeSentimentForTerm queryId term (Except.ok posts)).posts = posts := by
  simp only [analyzeSentimentForTerm]
  rw [if_neg (by simpa using h)]
  split_ifs <;> rfl

/-- A produced summary implies some searched post had non-blank text. -/
theorem analyze_summary_some_hasText (queryId : Nat) (term : String)
    (so : Except String (List Post)) (s : SentimentSummary)
    (h : (analyzeSentimentForTerm queryId term so).summary = some s) :
    ∃ p ∈ (analyzeSentimentForTerm queryId term so).posts,
      hasText p = true := by
  rcases so with m | posts
  · simp [analyzeSentimentForTerm] at h
  · rw [analyze_summary_spec] at h
    by_cases hz : (posts.filter successfullyScored).length = 0
    · rw [if_pos hz] at h
      simp at h
    · have hne : posts.filter successfullyScored ≠ [] := by
        intro hh
        exact hz (by simp [hh])
      obtain ⟨p, hp⟩ := List.exists_mem_of_ne_nil _ hne
      have hps : successfullyScored p = true := List.of_mem_filter hp
      have hpp : p ∈ posts := List.mem_of_mem_filter hp
      have ht : hasText p = true := by
        have h2 := hps
        simp only [successfullyScored, Bool.and_eq_true] at h2
        exact h2.1
      have hposts := analyze_posts_eq queryId term posts (List.ne_nil_of_mem hpp)
      exact ⟨p, by rw [hposts]; exact hpp, ht⟩

/-- A non-empty key-phrase or registration effect can only come from
the first-run discovery branch: the record was stored, the run count
was 0, the subscription succeeded, posts were present, and the effects
are exactly the discovery outputs. -/
theorem mainTopicPhase_discovery (w : World) (queryId : Nat)
    (d : QueryDetails) (c : Nat) (r : AnalyzeResult)
    (h : (mainTopicPhase w queryId d c r).kpCalls ≠ [] ∨
      (mainTopicPhase w queryId d c r).registered ≠ []) :
    (mainTopicPhase w queryId d c r).stored = true ∧ w.subscribeOk = true ∧
      c = 0 ∧ 0 < r.posts.length ∧
      (mainTopicPhase w queryId d c r).kpCalls =
        (firstRunDiscovery queryId d.topic r.posts).1 ∧
      (mainTopicPhase w queryId d c r).registered =
        (firstRunDiscovery queryId d.topic r.posts).2 := by
  unfold mainTopicPhase at h ⊢
  rcases hs : r.summary with _ | s <;> simp only [hs] at h ⊢
  · simp at h
  · split_ifs at h ⊢ <;> simp_all

/-- A stored main-topic record implies a produced summary. -/
theorem mainTopicPhase_stored_summary (w : World) (queryId : Nat)
    (d : QueryDetails) (c : Nat) (r : AnalyzeResult)
    (h : (mainTopicPhase w queryId d c r).stored = true) :
    ∃ s, r.summary = some s := by
  unfold mainTopicPhase at h
  rcases hs : r.summary with _ | s <;> simp only [hs] at h
  · simp at h
  · exact ⟨s, rfl⟩

/-- On a successful first-run store with a successful subscription and
posts present, the key-phrase calls are the discovery calls. -/
theorem mainTopicPhase_first_kp (w : World) (queryId : Nat)
    (d : QueryDetails) (r : AnalyzeResult)
    (hsub : w.subscribeOk = true)
    (hst : (mainTopicPhase w queryId d 0 r).stored = true)
    (hplen : 0 < r.posts.length) :
    (mainTopicPhase w queryId d 0 r).kpCalls =
      (firstRunDiscovery queryId d.topic r.posts).1 := by
  unfold mainTopicPhase at hst ⊢
  rcases hs : r.summary with _ | s <;> simp only [hs] at hst ⊢
  · simp at hst
  · split_ifs at hst ⊢ <;> simp_all

/-- Away from the first run, no key-phrase analysis and no
registration happen. -/
theorem mainTopicPhase_not_first (w : World) (queryId : Nat)
    (d : QueryDetails) (c : Nat) (r : AnalyzeResult) (hc : c ≠ 0) :
    (mainTopicPhase w queryId d c r).kpCalls = [] ∧
      (mainTopicPhase w queryId d c r).registered = [] := by
  unfold mainTopicPhase
  rcases hs : r.summary with _ | s <;> simp only [hs]
  · simp
  · split_ifs <;> simp_all

/-- Posts with blank text contribute no phrase counts. -/
theorem collectPhraseCounts_nil (nm : String) (posts : List Post)
    (h : ∀ p ∈ posts, hasText p = false) :
    collectPhraseCounts nm posts = [] := by
  unfold collectPhraseCounts
  induction posts with
  | nil => rfl
  | cons p t ih =>
    have hp : postKeyPhrases p = none := by
      simp [postKeyPhrases, h p (List.mem_cons_self p t)]
    rw [List.foldl_cons]
    rw [show postPhraseStep nm [] p = [] by simp [postPhraseStep, hp]]
    exact ih fun q hq => h q (List.mem_cons_of_mem p hq)

/-- Selection from an empty phrase-count table is empty. -/
theorem selectSubtopics_nil (mainTopic : String) :
    selectSubtopics mainTopic [] = [] := rfl

/-- The extractor is called at least once when some post has text. -/
theorem kpCalls_ne_nil (posts : List Post) (p : Post) (hp : p ∈ posts)
    (ht : hasText p = true) :
    posts.filterMap (fun q =>
      if hasText q then some (truncateForComprehend (postTextOf q))
      else none) ≠ [] := by
  intro hnil
  rw [List.filterMap_eq_nil_iff] at hnil
  have h2 := hnil p hp
  rw [if_pos ht] at h2
  exact Option.some_ne_none _ h2

/-- Discovery key-phrase calls are non-empty when a post has text. -/
theorem discovery_kp_ne (queryId : Nat) (mainTopic : String)
    (posts : List Post) (p : Post) (hp : p ∈ posts)
    (ht : hasText p = true) :
    (firstRunDiscovery queryId mainTopic posts).1 ≠ [] := by
  unfold firstRunDiscovery
  exact kpCalls_ne_nil posts p hp ht

/-- A non-empty registration effect requires some post with text. -/
theorem registered_ne_hasText (queryId : Nat) (mainTopic : String)
    (posts : List Post)
    (h : (firstRunDiscovery queryId mainTopic posts).2 ≠ []) :
    ∃ p ∈ posts, hasText p = true := by
  by_contra hno
  push_neg at hno
  have hall : ∀ p ∈ posts, hasText p = false := by
    intro p hp
    simpa using hno p hp
  have hcounts :
      collectPhraseCounts (jsTrim (jsToLower mainTopic)) posts = [] :=
    collectPhraseCounts_nil _ _ hall
  apply h
  unfold firstRunDiscovery
  simp [hcounts, selectSubtopics_nil]

/-- C4 (amended): key-phrase extraction and subtopic registration
happen only when the run count observed at entry is 0; on such a
first-run invocation, extractor calls are issued exactly when the
main-topic record was stored and the owner subscription succeeded
(which entails the search returned a post with text), and any
registration is accompanied by extractor calls.  An invocation whose
entry run count is non-zero never extracts or registers. -/
theorem handler_firstRun_exclusivity_C4 (w : World) (queryId : Nat)
    (d : QueryDetails)
    (hd : w.queryDetails = some d)
    (hs1 : d.status ≠ some ("COMPLETED"))
    (hs2 : d.status ≠ some ("CANCELLED"))
    (hscan : w.scanOk = true)
    (hlogin : w.loginOk = true) :
    (countMainRuns queryId w.store = 0 → 0 < d.numIntervals →
      ∃ e o, handler w queryId = Except.ok (e, some o) ∧
        (e.keyPhraseCalls ≠ [] ↔
          (o.mainStored = true ∧ w.subscribeOk = true)) ∧
        (e.registered ≠ [] → e.keyPhraseCalls ≠ [])) ∧
    (countMainRuns queryId w.store ≠ 0 →
      ∀ e o, handler w queryId = Except.ok (e, o) →
        e.keyPhraseCalls = [] ∧ e.registered = []) := by
  constructor
  · intro hrc0 hn
    have hnge : ¬ countMainRuns queryId w.store ≥ d.numIntervals := by omega
    simp only [handler, hd]
    rw [if_neg (by simp [hs1, hs2]), if_neg (by simp [hscan]), if_neg hnge,
      if_neg (by simp [hlogin]), hrc0]
    refine ⟨_, _, rfl, ?_, ?_⟩
    · constructor
      · intro hkp
        have h3 := mainTopicPhase_discovery w queryId d 0
          (analyzeSentimentForTerm queryId d.topic w.mainSearch) (Or.inl hkp)
        exact ⟨h3.1, h3.2.1⟩
      · rintro ⟨hst, hsub⟩
        obtain ⟨s, hsum⟩ := mainTopicPhase_stored_summary w queryId d 0
          (analyzeSentimentForTerm queryId d.topic w.mainSearch) hst
        obtain ⟨p, hp, ht⟩ :=
          analyze_summary_some_hasText queryId d.topic w.mainSearch s hsum
        have hplen : 0 <
            (analyzeSentimentForTerm queryId d.topic w.mainSearch).posts.length :=
          List.length_pos.mpr (List.ne_nil_of_mem hp)
        rw [mainTopicPhase_first_kp w queryId d
          (analyzeSentimentForTerm queryId d.topic w.mainSearch) hsub hst hplen]
        exact discovery_kp_ne queryId d.topic _ p hp ht
    · intro hreg
      have h3 := mainTopicPhase_discovery w queryId d 0
        (analyzeSentimentForTerm queryId d.topic w.mainSearch) (Or.inr hreg)
      rw [h3.2.2.2.2.1]
      obtain ⟨p, hp, ht⟩ := registered_ne_hasText queryId d.topic
        (analyzeSentimentForTerm queryId d.topic w.mainSearch).posts
        (by rw [← h3.2.2.2.2.2]; exact hreg)
      exact discovery_kp_ne queryId d.topic _ p hp ht
  · intro hrc e o h
    unfold handler at h
    simp only [hd] at h
    rw [if_neg (by simp [hs1, hs2]), if_neg (by simp [hscan])] at h
    by_cases h3 : countMainRuns queryId w.store ≥ d.numIntervals
    · rw [if_pos h3] at h
      simp only [Except.ok.injEq, Prod.mk.injEq] at h
      rw [← h.1]
      exact ⟨rfl, rfl⟩
    · rw [if_neg h3, if_neg (by simp [hlogin])] at h
      simp only [Except.ok.injEq, Prod.mk.injEq] at h
      rw [← h.1]
      exact mainTopicPhase_not_first w queryId d _ _ hrc

/-- Witness for C4 at a concrete first-interval world where the store
succeeds and discovery runs. -/
theorem handler_firstRun_exclusivity_C4_witness :
    (countMainRuns 7 baseWorld.store = 0 → 0 < demoDetails.numIntervals →
      ∃ e o, handler baseWorld 7 = Except.ok (e, some o) ∧
        (e.keyPhraseCalls ≠ [] ↔
          (o.mainStored = true ∧ baseWorld.subscribeOk = true)) ∧
        (e.registered ≠ [] → e.keyPhraseCalls ≠ [])) ∧
    (countMainRuns 7 baseWorld.store ≠ 0 →
      ∀ e o, handler baseWorld 7 = Except.ok (e, o) →
        e.keyPhraseCalls = [] ∧ e.registered = []) :=
  handler_firstRun_exclusivity_C4 baseWorld 7 demoDetails rfl (by decide)
    (by decide) rfl rfl

/-- Counterexample for C4 as stated: a first-interval invocation
(run count 0) whose search returns zero posts performs no key-phrase
extraction and no subtopic registration, refuting the unconditional
"if" direction of the claimed equivalence. -/
theorem handler_firstRun_C4_counterexample :
    countMainRuns 7 wC5.store = 0 ∧
    wC5.mainSearch = Except.ok [] ∧
    (handler wC5 7).map (fun x => (x.1.keyPhraseCalls, x.1.registered)) =
      Except.ok ([], []) :=
  ⟨rfl, rfl, rfl⟩

/-- C5 (amended): on a first-interval invocation whose main-topic
search returns zero posts, no main-topic record is written, the
effective run count stays 0, subtopic discovery is skipped, the
trigger is left intact — and, contrary to the claim, the owner
subscription is also skipped this invocation: the subscribe call sits
inside the summary-stored branch, so it is deferred to the first
invocation that stores a record (which still observes run count 0). -/
theorem handler_firstRunNoPosts_C5 (w : World) (queryId : Nat)
    (d : QueryDetails)
    (hd : w.queryDetails = some d)
    (hs1 : d.status ≠ some ("COMPLETED"))
    (hs2 : d.status ≠ some ("CANCELLED"))
    (hscan : w.scanOk = true)
    (hlogin : w.loginOk = true)
    (hrc0 : countMainRuns queryId w.store = 0)
    (hn : 0 < d.numIntervals)
    (hsearch : w.mainSearch = Except.ok []) :
    ∃ e o, handler w queryId = Except.ok (e, some o) ∧
      e.mainRecords = [] ∧ o.mainStored = false ∧ o.runCountAfter = 0 ∧
      e.keyPhraseCalls = [] ∧ e.registered = [] ∧ e.subRecords = [] ∧
      e.subscribeCalls = [] ∧ e.deletedTrigger = false ∧
      e.notifyCalls = [] := by
  have hnge : ¬ countMainRuns queryId w.store ≥ d.numIntervals := by omega
  simp only [handler, hd]
  rw [if_neg (by simp [hs1, hs2]), if_neg (by simp [hscan]), if_neg hnge,
    if_neg (by simp [hlogin]), hrc0, hsearch]
  have ha : analyzeSentimentForTerm queryId d.topic (Except.ok []) =
      ⟨none, [], []⟩ := rfl
  rw [ha]
  have hb : mainTopicPhase w queryId d 0 ⟨none, [], []⟩ =
      ⟨false, [], [], [], []⟩ := rfl
  rw [hb]
  have hcond : ¬ (0 +
      (if (MainPhase.mk false [] [] [] [] : MainPhase).stored = true
        then 1 else 0) ≥ d.numIntervals) := by
    simp
    omega
  refine ⟨_, _, rfl, rfl, rfl, rfl, rfl, rfl, rfl, rfl, ?_, ?_⟩
  · simp [hcond]
    omega
  · simp [hcond]
    omega

/-- Witness for C5 at a concrete zero-post first-interval world. -/
theorem handler_firstRunNoPosts_C5_witness :
    ∃ e o, handler wC5 7 = Except.ok (e, some o) ∧
      e.mainRecords = [] ∧ o.mainStored = false ∧ o.runCountAfter = 0 ∧
      e.keyPhraseCalls = [] ∧ e.registered = [] ∧ e.subRecords = [] ∧
      e.subscribeCalls = [] ∧ e.deletedTrigger = false ∧
      e.notifyCalls = [] :=
  handler_firstRunNoPosts_C5 wC5 7 demoDetails rfl (by decide) (by decide)
    rfl rfl rfl (by decide) rfl

/-- Counterexample for C5 as stated: on the zero-post first-interval
invocation the owner subscription does not occur (no subscribe call is
issued), because the subscription is nested inside the branch that
requires a stored summary. -/
theorem handler_firstRunNoPosts_C5_counterexample :
    countMainRuns 7 wC5.store = 0 ∧
    wC5.mainSearch = Except.ok [] ∧
    (handler wC5 7).map (fun x => (x.1.subscribeCalls, x.1.mainRecords)) =
      Except.ok ([], []) :=
  ⟨rfl, rfl, rfl⟩

/-- C8: on a subsequent-interval invocation, subtopic outcomes are
per-subtopic: the handler completes normally, the subtopic Result
records are a filterMap of the per-subtopic outcome over the fetched
subtopic list, a successfully analyzed-and-stored subtopic's record is
always among them, and each subtopic's outcome depends only on that
subtopic's own search and storage oracles — a failure in one subtopic
cannot suppress the records of its siblings or fail the invocation. -/
theorem subtopic_isolation_C8 (w : World) (queryId : Nat)
    (d : QueryDetails)
    (hd : w.queryDetails = some d)
    (hs1 : d.status ≠ some ("COMPLETED"))
    (hs2 : d.status ≠ some ("CANCELLED"))
    (hscan : w.scanOk = true)
    (hrc : countMainRuns queryId w.store < d.numIntervals)
    (hlogin : w.loginOk = true)
    (hpos : 0 < countMainRuns queryId w.store) :
    ∃ e o, handler w queryId = Except.ok (e, some o) ∧
      e.subRecords = (getSubtopics w.parse w.subtopicsResp).filterMap
        (subtopicOutcome w queryId d.topic) ∧
      (∀ t ∈ getSubtopics w.parse w.subtopicsResp, ∀ s,
        (analyzeSentimentForTerm queryId t (w.subSearch t)).summary = some s →
        w.subStoreOk t = true →
        storeSubtopicAnalysisResults s t d.topic ∈ e.subRecords) ∧
      (∀ w2 : World, ∀ t : String, w2.subSearch t = w.subSearch t →
        w2.subStoreOk t = w.subStoreOk t →
        subtopicOutcome w2 queryId d.topic t =
          subtopicOutcome w queryId d.topic t) := by
  have hnge : ¬ countMainRuns queryId w.store ≥ d.numIntervals :=
    Nat.not_le.mpr hrc
  simp only [handler, hd]
  rw [if_neg (by simp [hs1, hs2]), if_neg (by simp [hscan]), if_neg hnge,
    if_neg (by simp [hlogin])]
  rw [if_pos hpos]
  refine ⟨_, _, rfl, rfl, ?_, ?_⟩
  · intro t ht s hsum hstore
    refine List.mem_filterMap.mpr ⟨t, ht, ?_⟩
    simp [subtopicOutcome, hsum, hstore]
  · intro w2 t h1 h2
    unfold subtopicOutcome
    rw [h1, h2]

/-- Witness for C8 at a world with one failing and one succeeding
subtopic. -/
theorem subtopic_isolation_C8_witness :
    ∃ e o, handler wC8 7 = Except.ok (e, some o) ∧
      e.subRecords = (getSubtopics wC8.parse wC8.subtopicsResp).filterMap
        (subtopicOutcome wC8 7 demoDetails.topic) ∧
      (∀ t ∈ getSubtopics wC8.parse wC8.subtopicsResp, ∀ s,
        (analyzeSentimentForTerm 7 t (wC8.subSearch t)).summary = some s →
        wC8.subStoreOk t = true →
        storeSubtopicAnalysisResults s t demoDetails.topic ∈ e.subRecords) ∧
      (∀ w2 : World, ∀ t : String, w2.subSearch t = wC8.subSearch t →
        w2.subStoreOk t = wC8.subStoreOk t →
        subtopicOutcome w2 7 demoDetails.topic t =
          subtopicOutcome wC8 7 demoDetails.topic t) :=
  subtopic_isolation_C8 wC8 7 demoDetails rfl (by decide) (by decide) rfl
    (by decide) rfl (by decide)

/-- C10: every failure shape of the getSubtopic invocation collapses
to the empty subtopic list — a thrown send, a FunctionError, a
missing or unparseable payload, a payload that is neither a string
array nor a 2xx response with a string body, a non-2xx status, a body
that does not parse, or a body that parses to a non-array — and with
an empty list a subsequent-interval invocation completes normally
with main-topic-only analysis. -/
theorem getSubtopics_failure_C10 (parse : String → Option Json) :
    (∀ m, getSubtopics parse (LambdaInvokeResult.invokeError m) = []) ∧
    (∀ m, getSubtopics parse (LambdaInvokeResult.functionError m) = []) ∧
    getSubtopics parse LambdaInvokeResult.noPayload = [] ∧
    getSubtopics parse LambdaInvokeResult.unparseablePayload = [] ∧
    (∀ j, isStringArray j = false → jsonField j ("body") = none →
      getSubtopics parse (LambdaInvokeResult.payload j) = []) ∧
    (∀ j v, isStringArray j = false → jsonField j ("body") = some v →
      (∀ b, v ≠ Json.str b) →
      getSubtopics parse (LambdaInvokeResult.payload j) = []) ∧
    (∀ j b, isStringArray j = false →
      jsonField j ("body") = some (Json.str b) →
      statusCode2xx (jsonField j ("statusCode")) = false →
      getSubtopics parse (LambdaInvokeResult.payload j) = []) ∧
    (∀ j b, isStringArray j = false →
      jsonField j ("body") = some (Json.str b) →
      statusCode2xx (jsonField j ("statusCode")) = true → parse b = none →
      getSubtopics parse (LambdaInvokeResult.payload j) = []) ∧
    (∀ j b jb, isStringArray j = false →
      jsonField j ("body") = some (Json.str b) →
      statusCode2xx (jsonField j ("statusCode")) = true → parse b = some jb →
      (∀ xs, jb ≠ Json.arr xs) →
      getSubtopics parse (LambdaInvokeResult.payload j) = []) ∧
    (∀ w : World, ∀ queryId : Nat, ∀ d : QueryDetails,
      w.queryDetails = some d →
      d.status ≠ some ("COMPLETED") → d.status ≠ some ("CANCELLED") →
      w.scanOk = true → w.loginOk = true →
      countMainRuns queryId w.store < d.numIntervals →
      getSubtopics w.parse w.subtopicsResp = [] →
      ∃ e o, handler w queryId = Except.ok (e, some o) ∧
        e.subRecords = [] ∧ e.searches = [d.topic]) := by
  refine ⟨fun m => rfl, fun m => rfl, rfl, rfl, ?_, ?_, ?_, ?_, ?_, ?_⟩
  · intro j h1 h2
    simp [getSubtopics, h1, h2]
  · intro j v h1 h2 h3
    cases v <;> simp_all [getSubtopics]
  · intro j b h1 h2 h3
    simp [getSubtopics, h1, h2, h3]
  · intro j b h1 h2 h3 h4
    simp [getSubtopics, h1, h2, h3, h4]
  · intro j b jb h1 h2 h3 h4 h5
    cases jb <;> simp_all [getSubtopics]
  · intro w queryId d hd hst1 hst2 hscan hlogin hrc hsubs
    have hnge : ¬ countMainRuns queryId w.store ≥ d.numIntervals :=
      Nat.not_le.mpr hrc
    simp only [handler, hd]
    rw [if_neg (by simp [hst1, hst2]), if_neg (by simp [hscan]), if_neg hnge,
      if_neg (by simp [hlogin]), hsubs]
    exact ⟨_, _, rfl, by simp, by simp⟩

/-- Witness for C10 at concrete failure shapes. -/
theorem getSubtopics_failure_C10_witness :
    getSubtopics (fun _ => none) (LambdaInvokeResult.invokeError ("boom")) =
      [] ∧
    getSubtopics (fun _ => none)
      (LambdaInvokeResult.payload
        (Json.obj [(("statusCode"), Json.num 500), (("body"), Json.str ("x"))])) =
      [] ∧
    getSubtopics (fun _ => none)
      (LambdaInvokeResult.payload
        (Json.obj [(("statusCode"), Json.num 200),
          (("body"), Json.str ("nope"))])) = [] ∧
    (∃ e o, handler wC10 7 = Except.ok (e, some o) ∧
      e.subRecords = [] ∧ e.searches = [demoDetails.topic]) := by
  have h := getSubtopics_failure_C10 (fun _ => none)
  refine ⟨h.1 ("boom"), ?_, ?_, ?_⟩
  · exact h.2.2.2.2.2.2.1 _ ("x") rfl rfl rfl
  · exact h.2.2.2.2.2.2.2.1 _ ("nope") rfl rfl rfl rfl
  · exact (getSubtopics_failure_C10 wC10.parse).2.2.2.2.2.2.2.2.2
      wC10 7 demoDetails rfl (by decide) (by decide) rfl rfl (by decide)
      rfl

/-- Keys of the updated phrase table are the old keys plus the
counted phrase. -/
theorem bumpPhrase_keys (m : List (String × Nat)) (np x : String)
    (hx : x ∈ (bumpPhrase m np).map Prod.fst) :
    x ∈ m.map Prod.fst ∨ x = np := by
  unfold bumpPhrase at hx
  split_ifs at hx
  · have hmap : (m.map fun e => if e.1 = np then (e.1, e.2 + 1) else e).map
        Prod.fst = m.map Prod.fst := by
      rw [List.map_map]
      apply List.map_congr_left
      intro e _
      by_cases h0 : e.1 = np <;> simp [h0]
    rw [hmap] at hx
    exact Or.inl hx
  · rw [List.map_append] at hx
    rcases List.mem_append.mp hx with h | h
    · exact Or.inl h
    · simp at h
      exact Or.inr h

/-- One phrase step adds only keys that pass the filter and are the
normalization of a raw phrase. -/
theorem phraseStep_keys (nm : String) (m : List (String × Nat))
    (phrase x : String)
    (hx : x ∈ (phraseStep nm m phrase).map Prod.fst) :
    x ∈ m.map Prod.fst ∨
      ((∃ raw, x = jsTrim (jsToLower raw)) ∧ x ≠ "" ∧ 2 < jsLength x ∧
        x ≠ nm) := by
  simp only [phraseStep] at hx
  split_ifs at hx with hcond
  · rcases bumpPhrase_keys _ _ _ hx with h | h
    · exact Or.inl h
    · subst h
      exact Or.inr ⟨⟨phrase, rfl⟩, hcond.1, hcond.2.1, hcond.2.2⟩
  · exact Or.inl hx

/-- The phrase-loop invariant over one post's phrase list. -/
theorem foldl_phraseStep_keys (nm : String) (ps : List String) :
    ∀ (m : List (String × Nat)) (x : String),
      x ∈ (ps.foldl (phraseStep nm) m).map Prod.fst →
      x ∈ m.map Prod.fst ∨
        ((∃ raw, x = jsTrim (jsToLower raw)) ∧ x ≠ "" ∧ 2 < jsLength x ∧
          x ≠ nm) := by
  induction ps with
  | nil => exact fun m x hx => Or.inl hx
  | cons q t ih =>
    intro m x hx
    rw [List.foldl_cons] at hx
    rcases ih _ x hx with h | h
    · exact phraseStep_keys nm m q x h
    · exact Or.inr h

/-- The phrase-loop invariant over one post. -/
theorem postPhraseStep_keys (nm : String) (m : List (String × Nat))
    (p : Post) (x : String)
    (hx : x ∈ (postPhraseStep nm m p).map Prod.fst) :
    x ∈ m.map Prod.fst ∨
      ((∃ raw, x = jsTrim (jsToLower raw)) ∧ x ≠ "" ∧ 2 < jsLength x ∧
        x ≠ nm) := by
  unfold postPhraseStep at hx
  rcases hk : postKeyPhrases p with _ | ps <;> simp only [hk] at hx
  · exact Or.inl hx
  · exact foldl_phraseStep_keys nm ps m x hx

/-- Every key of the aggregated phrase table is a non-trivial
normalized phrase different from the normalized main topic. -/
theorem collectPhraseCounts_keys (nm : String) (posts : List Post)
    (x : String)
    (hx : x ∈ (collectPhraseCounts nm posts).map Prod.fst) :
    (∃ raw, x = jsTrim (jsToLower raw)) ∧ x ≠ "" ∧ 2 < jsLength x ∧
      x ≠ nm := by
  unfold collectPhraseCounts at hx
  have haux : ∀ (l : List Post) (m : List (String × Nat)),
      x ∈ (l.foldl (postPhraseStep nm) m).map Prod.fst →
      x ∈ m.map Prod.fst ∨
        ((∃ raw, x = jsTrim (jsToLower raw)) ∧ x ≠ "" ∧ 2 < jsLength x ∧
          x ≠ nm) := by
    intro l
    induction l with
    | nil => exact fun m hx2 => Or.inl hx2
    | cons p t ih =>
      intro m hx2
      rw [List.foldl_cons] at hx2
      rcases ih _ hx2 with h | h
      · exact postPhraseStep_keys nm m p x h
      · exact Or.inr h
  rcases haux posts [] hx with h | h
  · simp at h
  · exact h

/-- Inserting into the sorted list only permutes membership. -/
theorem insertByCountDesc_mem (y : String × Nat)
    (l : List (String × Nat)) (x : String × Nat)
    (hx : x ∈ insertByCountDesc y l) : x = y ∨ x ∈ l := by
  induction l with
  | nil =>
    simp [insertByCountDesc] at hx
    exact Or.inl hx
  | cons z t ih =>
    unfold insertByCountDesc at hx
    split_ifs at hx
    · rcases List.mem_cons.mp hx with h | h
      · exact Or.inl h
      · exact Or.inr h
    · rcases List.mem_cons.mp hx with h | h
      · exact Or.inr (List.mem_cons.mpr (Or.inl h))
      · rcases ih h with h2 | h2
        · exact Or.inl h2
        · exact Or.inr (List.mem_cons.mpr (Or.inr h2))

/-- The sorting fold only permutes membership. -/
theorem foldl_insert_mem (l : List (String × Nat)) :
    ∀ (s0 : List (String × Nat)) (x : String × Nat),
      x ∈ l.foldl (fun sorted y => insertByCountDesc y sorted) s0 →
      x ∈ s0 ∨ x ∈ l := by
  induction l with
  | nil => exact fun s0 x hx => Or.inl hx
  | cons y t ih =>
    intro s0 x hx
    rw [List.foldl_cons] at hx
    rcases ih _ x hx with h | h
    · rcases insertByCountDesc_mem y s0 x h with h2 | h2
      · exact Or.inr (List.mem_cons.mpr (Or.inl h2))
      · exact Or.inl h2
    · exact Or.inr (List.mem_cons_of_mem y h)

/-- Members of the sorted phrase list are members of the table. -/
theorem sortByCountDesc_mem (l : List (String × Nat)) (x : String × Nat)
    (hx : x ∈ sortByCountDesc l) : x ∈ l := by
  unfold sortByCountDesc at hx
  rcases foldl_insert_mem l [] x hx with h | h
  · simp at h
  · exact h

/-- A selected subtopic is a key of the phrase table whose
normalization differs from the normalized main topic. -/
theorem selectSubtopics_mem (mainTopic : String)
    (counts : List (String × Nat)) (ph : String)
    (hph : ph ∈ selectSubtopics mainTopic counts) :
    ph ∈ counts.map Prod.fst ∧
      jsTrim (jsToLower ph) ≠ jsTrim (jsToLower mainTopic) := by
  unfold selectSubtopics at hph
  have h2 := List.mem_of_mem_take hph
  have h3 := List.mem_filter.mp h2
  constructor
  · rcases List.mem_map.mp h3.1 with ⟨pair, hpair, hfst⟩
    have h5 := sortByCountDesc_mem counts pair (List.mem_of_mem_take hpair)
    exact hfst ▸ List.mem_map_of_mem Prod.fst h5
  · simpa using h3.2

/-- At most SUBTOPIC_COUNT subtopics are ever selected. -/
theorem selectSubtopics_length (mainTopic : String)
    (counts : List (String × Nat)) :
    (selectSubtopics mainTopic counts).length ≤ SUBTOPIC_COUNT := by
  unfold selectSubtopics
  exact List.length_take_le _ _

/-- A registration payload carries the invoking queryId. -/
theorem triggerAddSubtopicLambda_fst (queryId : Nat) (s : String)
    (y : Nat × String) (h : triggerAddSubtopicLambda queryId s = some y) :
    y.1 = queryId := by
  simp only [triggerAddSubtopicLambda] at h
  split_ifs at h
  all_goals
    first
    | (obtain rfl := Option.some.inj h; rfl)
    | exact absurd h (by simp)

/-- The registration payloads of the discovery step. -/
theorem firstRunDiscovery_snd (queryId : Nat) (mainTopic : String)
    (posts : List Post) :
    (firstRunDiscovery queryId mainTopic posts).2 =
      (selectSubtopics mainTopic
        (collectPhraseCounts (jsTrim (jsToLower mainTopic)) posts)).filterMap
        (triggerAddSubtopicLambda queryId) := rfl

/-- C7 (amended): every invocation issues at most SUBTOPIC_COUNT = 3
registration payloads, and none when the entry run count is non-zero;
any non-empty registration list is exactly the discovery pipeline
(rank by descending aggregated frequency, take SUBTOPIC_COUNT + 1,
filter the main topic case-insensitively, take SUBTOPIC_COUNT,
truncate each label to MAX_SUBTOPIC_LENGTH UTF-16 units); and every
payload carries the queryId and the truncation of a selected phrase
that is the trim-lowercase normalization of an extracted phrase, has
UTF-16 length > 2, and differs (normalized) from the normalized main
topic — though the 255-unit truncation itself can make the registered
label equal to the main topic (see the counterexample). -/
theorem subtopic_registration_C7 (w : World) (queryId : Nat)
    (d : QueryDetails) (hd : w.queryDetails = some d) :
    ∀ e o, handler w queryId = Except.ok (e, o) →
      e.registered.length ≤ SUBTOPIC_COUNT ∧
      (countMainRuns queryId w.store ≠ 0 → e.registered = []) ∧
      (e.registered = [] ∨
        e.registered =
          (selectSubtopics d.topic
            (collectPhraseCounts (jsTrim (jsToLower d.topic))
              (analyzeSentimentForTerm queryId d.topic
                w.mainSearch).posts)).filterMap
            (triggerAddSubtopicLambda queryId)) ∧
      (∀ y ∈ e.registered, y.1 = queryId ∧ ∃ ph raw,
        ph = jsTrim (jsToLower raw) ∧ 2 < jsLength ph ∧
        jsTrim (jsToLower ph) ≠ jsTrim (jsToLower d.topic) ∧
        triggerAddSubtopicLambda queryId ph = some y) := by
  intro e o h
  unfold handler at h
  simp only [hd] at h
  by_cases h1 : d.status = some ("COMPLETED") ∨ d.status = some ("CANCELLED")
  · rw [if_pos h1] at h
    simp only [Except.ok.injEq, Prod.mk.injEq] at h
    rw [← h.1]
    refine ⟨by simp [SUBTOPIC_COUNT], fun _ => rfl, Or.inl rfl, ?_⟩
    intro y hy
    simp at hy
  · rw [if_neg h1] at h
    by_cases h2 : w.scanOk = false
    · rw [if_pos h2] at h
      exact absurd h (by simp)
    · rw [if_neg h2] at h
      by_cases h3 : countMainRuns queryId w.store ≥ d.numIntervals
      · rw [if_pos h3] at h
        simp only [Except.ok.injEq, Prod.mk.injEq] at h
        rw [← h.1]
        refine ⟨by simp [SUBTOPIC_COUNT], fun _ => rfl, Or.inl rfl, ?_⟩
        intro y hy
        simp at hy
      · rw [if_neg h3] at h
        by_cases h4 : w.loginOk = false
        · rw [if_pos h4] at h
          exact absurd h (by simp)
        · rw [if_neg h4] at h
          simp only [Except.ok.injEq, Prod.mk.injEq] at h
          rw [← h.1]
          by_cases hreg : (mainTopicPhase w queryId d
              (countMainRuns queryId w.store)
              (analyzeSentimentForTerm queryId d.topic
                w.mainSearch)).registered = []
          · refine ⟨by simp [hreg, SUBTOPIC_COUNT], fun _ => hreg,
              Or.inl hreg, ?_⟩
            intro y hy
            rw [hreg] at hy
            simp at hy
          · have hdisc := mainTopicPhase_discovery w queryId d
              (countMainRuns queryId w.store)
              (analyzeSentimentForTerm queryId d.topic w.mainSearch)
              (Or.inr hreg)
            have hreq := hdisc.2.2.2.2.2
            rw [hreq, firstRunDiscovery_snd]
            refine ⟨?_, ?_, Or.inr rfl, ?_⟩
            · exact le_trans (List.length_filterMap_le _ _)
                (selectSubtopics_length _ _)
            · intro hcc
              exact absurd hdisc.2.2.1 hcc
            · intro y hy
              rcases List.mem_filterMap.mp hy with ⟨ph, hph, htr⟩
              have hsel := selectSubtopics_mem d.topic _ ph hph
              have hkeys := collectPhraseCounts_keys _ _ ph hsel.1
              exact ⟨triggerAddSubtopicLambda_fst queryId ph y htr,
                ph, hkeys.1.choose, hkeys.1.choose_spec, hkeys.2.2.1,
                hsel.2, htr⟩

/-- Witness for C7 at a concrete zero-post first-interval world. -/
theorem subtopic_registration_C7_witness :
    ∃ e o, handler wC5 7 = Except.ok (e, o) ∧
      (e.registered.length ≤ SUBTOPIC_COUNT ∧
      (countMainRuns 7 wC5.store ≠ 0 → e.registered = []) ∧
      (e.registered = [] ∨
        e.registered =
          (selectSubtopics demoDetails.topic
            (collectPhraseCounts (jsTrim (jsToLower demoDetails.topic))
              (analyzeSentimentForTerm 7 demoDetails.topic
                wC5.mainSearch).posts)).filterMap
            (triggerAddSubtopicLambda 7)) ∧
      (∀ y ∈ e.registered, y.1 = 7 ∧ ∃ ph raw,
        ph = jsTrim (jsToLower raw) ∧ 2 < jsLength ph ∧
        jsTrim (jsToLower ph) ≠ jsTrim (jsToLower demoDetails.topic) ∧
        triggerAddSubtopicLambda 7 ph = some y)) := by
  have h := subtopic_registration_C7 wC5 7 demoDetails rfl
  have hproj : (handler wC5 7).map (fun x => x.1.registered) =
      Except.ok [] := rfl
  cases hh : handler wC5 7 with
  | error f =>
    rw [hh] at hproj
    simp [Except.map] at hproj
  | ok pr =>
    obtain ⟨e1, o1⟩ := pr
    exact ⟨e1, o1, rfl, h e1 o1 hh⟩

set_option maxRecDepth 40000 in
/-- Counterexample for C7 as stated: with a 255-character main topic
and a dominant 256-character phrase properly extending it, the phrase
passes every filter, but its MAX_SUBTOPIC_LENGTH truncation makes the
registered label equal to the main topic string — so a registered
label can be case-insensitively equal to the main topic. -/
theorem subtopic_registration_C7_counterexample :
    (handler wC7 7).map (fun x => x.1.registered) =
      Except.ok [(7, aStr255)] ∧
    dC7.topic = aStr255 ∧
    jsTrim (jsToLower aStr255) = jsTrim (jsToLower dC7.topic) :=
  ⟨rfl, rfl, rfl⟩

/-- Encoding distributes over cons. -/
theorem utf8Encode_cons (c : Nat) (t : List Nat) :
    utf8Encode (c :: t) = utf8EncodeChar c ++ utf8Encode t := by
  simp [utf8Encode]

/-- Encoding distributes over append. -/
theorem utf8Encode_append (a b : List Nat) :
    utf8Encode (a ++ b) = utf8Encode a ++ utf8Encode b := by
  simp [utf8Encode]

set_option maxRecDepth 40000 in
/-- Decoding a validly encoded character at the head of a byte stream
recovers that character. -/
theorem decode_encodeChar (c : Nat) (hc : ValidScalar c) (l : List Nat) :
    utf8DecodeReplace (utf8EncodeChar c ++ l) = c :: utf8DecodeReplace l := by
  obtain ⟨hlt, hsur⟩ := hc
  by_cases h1 : c < 0x80
  · rw [show utf8EncodeChar c = [c] from by simp [utf8EncodeChar, h1]]
    rw [List.singleton_append]
    rw [utf8DecodeReplace.eq_def]
    simp only []
    rw [if_pos h1]
  · by_cases h2 : c < 0x800
    · rw [show utf8EncodeChar c = [0xC0 + c / 0x40, 0x80 + c % 0x40] from by
        simp [utf8EncodeChar, h1, h2]]
      simp only [List.cons_append, List.nil_append]
      rw [utf8DecodeReplace.eq_def]
      simp only []
      rw [if_neg (by omega), if_pos (by omega)]
      rw [if_pos (show contOk (0x80 + c % 0x40) = true from by
        unfold contOk
        exact decide_eq_true (by omega))]
      congr 1
      omega
    · by_cases h3 : c < 0x10000
      · rw [show utf8EncodeChar c =
            [0xE0 + c / 0x1000, 0x80 + (c / 0x40) % 0x40, 0x80 + c % 0x40]
          from by simp [utf8EncodeChar, h1, h2, h3]]
        simp only [List.cons_append, List.nil_append]
        rw [utf8DecodeReplace.eq_def]
        simp only []
        rw [if_neg (by omega), if_neg (by omega), if_pos (by omega)]
        rw [if_pos (show cont1Ok3 (0xE0 + c / 0x1000)
            (0x80 + (c / 0x40) % 0x40) = true from by
          unfold cont1Ok3 contOk
          split_ifs with hE0 hED
          · exact decide_eq_true (by omega)
          · exact decide_eq_true (by omega)
          · exact decide_eq_true (by omega))]
        rw [if_pos (show contOk (0x80 + c % 0x40) = true from by
          unfold contOk
          exact decide_eq_true (by omega))]
        congr 1
        omega
      · rw [show utf8EncodeChar c =
            [0xF0 + c / 0x40000, 0x80 + (c / 0x1000) % 0x40,
              0x80 + (c / 0x40) % 0x40, 0x80 + c % 0x40]
          from by simp [utf8EncodeChar, h1, h2, h3]]
        simp only [List.cons_append, List.nil_append]
        rw [utf8DecodeReplace.eq_def]
        simp only []
        rw [if_neg (by omega), if_neg (by omega), if_neg (by omega),
          if_pos (by omega)]
        rw [if_pos (show cont1Ok4 (0xF0 + c / 0x40000)
            (0x80 + (c / 0x1000) % 0x40) = true from by
          unfold cont1Ok4 contOk
          split_ifs with hF0 hF4
          · exact decide_eq_true (by omega)
          · exact decide_eq_true (by omega)
          · exact decide_eq_true (by omega))]
        rw [if_pos (show contOk (0x80 + (c / 0x40) % 0x40) = true from by
          unfold contOk
          exact decide_eq_true (by omega))]
        rw [if_pos (show contOk (0x80 + c % 0x40) = true from by
          unfold contOk
          exact decide_eq_true (by omega))]
        congr 1
        omega

set_option maxRecDepth 40000 in
/-- Decoding a strict, non-empty byte prefix of one validly encoded
character yields a single replacement character. -/
theorem decode_encodeChar_take (c : Nat) (hc : ValidScalar c) (n : Nat)
    (hn0 : 0 < n) (hn : n < (utf8EncodeChar c).length) :
    utf8DecodeReplace ((utf8EncodeChar c).take n) = [0xFFFD] := by
  obtain ⟨hlt, hsur⟩ := hc
  by_cases h1 : c < 0x80
  · rw [show utf8EncodeChar c = [c] from by simp [utf8EncodeChar, h1]] at hn
    simp at hn
    omega
  · by_cases h2 : c < 0x800
    · rw [show utf8EncodeChar c = [0xC0 + c / 0x40, 0x80 + c % 0x40] from by
        simp [utf8EncodeChar, h1, h2]] at hn ⊢
      simp only [List.length_cons, List.length_nil] at hn
      have hn1 : n = 1 := by omega
      subst hn1
      rw [show [0xC0 + c / 0x40, 0x80 + c % 0x40].take 1 =
        [0xC0 + c / 0x40] from rfl]
      rw [utf8DecodeReplace.eq_def]
      simp only []
      rw [if_neg (by omega), if_pos (by omega)]
    · by_cases h3 : c < 0x10000
      · rw [show utf8EncodeChar c =
            [0xE0 + c / 0x1000, 0x80 + (c / 0x40) % 0x40, 0x80 + c % 0x40]
          from by simp [utf8EncodeChar, h1, h2, h3]] at hn ⊢
        simp only [List.length_cons, List.length_nil] at hn
        have hn12 : n = 1 ∨ n = 2 := by omega
        rcases hn12 with hn1 | hn2
        · subst hn1
          rw [show [0xE0 + c / 0x1000, 0x80 + (c / 0x40) % 0x40,
              0x80 + c % 0x40].take 1 = [0xE0 + c / 0x1000] from rfl]
          rw [utf8DecodeReplace.eq_def]
          simp only []
          rw [if_neg (by omega), if_neg (by omega), if_pos (by omega)]
        · subst hn2
          rw [show [0xE0 + c / 0x1000, 0x80 + (c / 0x40) % 0x40,
              0x80 + c % 0x40].take 2 =
            [0xE0 + c / 0x1000, 0x80 + (c / 0x40) % 0x40] from rfl]
          rw [utf8DecodeReplace.eq_def]
          simp only []
          rw [if_neg (by omega), if_neg (by omega), if_pos (by omega)]
          rw [if_pos (show cont1Ok3 (0xE0 + c / 0x1000)
              (0x80 + (c / 0x40) % 0x40) = true from by
            unfold cont1Ok3 contOk
            split_ifs with hE0 hED
            · exact decide_eq_true (by omega)
            · exact decide_eq_true (by omega)
            · exact decide_eq_true (by omega))]
      · rw [show utf8EncodeChar c =
            [0xF0 + c / 0x40000, 0x80 + (c / 0x1000) % 0x40,
              0x80 + (c / 0x40) % 0x40, 0x80 + c % 0x40]
          from by simp [utf8EncodeChar, h1, h2, h3]] at hn ⊢
        simp only [List.length_cons, List.length_nil] at hn
        have hn123 : n = 1 ∨ n = 2 ∨ n = 3 := by omega
        rcases hn123 with hn1 | hn2 | hn3
        · subst hn1
          rw [show [0xF0 + c / 0x40000, 0x80 + (c / 0x1000) % 0x40,
              0x80 + (c / 0x40) % 0x40, 0x80 + c % 0x40].take 1 =
            [0xF0 + c / 0x40000] from rfl]
          rw [utf8DecodeReplace.eq_def]
          simp only []
          rw [if_neg (by omega), if_neg (by omega), if_neg (by omega),
            if_pos (by omega)]
        · subst hn2
          rw [show [0xF0 + c / 0x40000, 0x80 + (c / 0x1000) % 0x40,
              0x80 + (c / 0x40) % 0x40, 0x80 + c % 0x40].take 2 =
            [0xF0 + c / 0x40000, 0x80 + (c / 0x1000) % 0x40] from rfl]
          rw [utf8DecodeReplace.eq_def]
          simp only []
          rw [if_neg (by omega), if_neg (by omega), if_neg (by omega),
            if_pos (by omega)]
          rw [if_pos (show cont1Ok4 (0xF0 + c / 0x40000)
              (0x80 + (c / 0x1000) % 0x40) = true from by
            unfold cont1Ok4 contOk
            split_ifs with hF0 hF4
            · exact decide_eq_true (by omega)
            · exact decide_eq_true (by omega)
            · exact decide_eq_true (by omega))]
        · subst hn3
          rw [show [0xF0 + c / 0x40000, 0x80 + (c / 0x1000) % 0x40,
              0x80 + (c / 0x40) % 0x40, 0x80 + c % 0x40].take 3 =
            [0xF0 + c / 0x40000, 0x80 + (c / 0x1000) % 0x40,
              0x80 + (c / 0x40) % 0x40] from rfl]
          rw [utf8DecodeReplace.eq_def]
          simp only []
          rw [if_neg (by omega), if_neg (by omega), if_neg (by omega),
            if_pos (by omega)]
          rw [if_pos (show cont1Ok4 (0xF0 + c / 0x40000)
              (0x80 + (c / 0x1000) % 0x40) = true from by
            unfold cont1Ok4 contOk
            split_ifs with hF0 hF4
            · exact decide_eq_true (by omega)
            · exact decide_eq_true (by omega)
            · exact decide_eq_true (by omega))]
          rw [if_pos (show contOk (0x80 + (c / 0x40) % 0x40) = true from by
            unfold contOk
            exact decide_eq_true (by omega))]

/-- Decoding a byte-sliced valid encoding: the re-encoded result
exceeds the slice length by at most 2 bytes (a split code point's
partial bytes become one 3-byte U+FFFD), and every decoded code point
is a valid scalar. -/
theorem decode_take_encode (cs : List Nat) :
    ∀ n : Nat, (∀ c ∈ cs, ValidScalar c) →
      (utf8Encode (utf8DecodeReplace ((utf8Encode cs).take n))).length ≤
        n + 2 ∧
      (∀ x ∈ utf8DecodeReplace ((utf8Encode cs).take n), ValidScalar x) := by
  induction cs with
  | nil =>
    intro n h
    constructor
    · simp [utf8Encode, utf8DecodeReplace]
    · intro x hx
      simp [utf8Encode, utf8DecodeReplace] at hx
  | cons c t ih =>
    intro n h
    have hc : ValidScalar c := h c (List.mem_cons_self c t)
    rw [utf8Encode_cons]
    by_cases hn : (utf8EncodeChar c).length ≤ n
    · rw [List.take_append_eq_append_take, List.take_of_length_le hn]
      rw [decode_encodeChar c hc]
      obtain ⟨ih1, ih2⟩ := ih (n - (utf8EncodeChar c).length)
        (fun x hx => h x (List.mem_cons_of_mem c hx))
      constructor
      · rw [utf8Encode_cons, List.length_append]
        omega
      · intro x hx
        rcases List.mem_cons.mp hx with h2 | h2
        · exact h2 ▸ hc
        · exact ih2 x h2
    · push_neg at hn
      rw [List.take_append_of_le_length (Nat.le_of_lt hn)]
      by_cases hn0 : n = 0
      · subst hn0
        constructor
        · simp [utf8DecodeReplace, utf8Encode]
        · intro x hx
          simp [utf8DecodeReplace] at hx
      · rw [decode_encodeChar_take c hc n (Nat.pos_of_ne_zero hn0) hn]
        constructor
        · rw [show (utf8Encode [0xFFFD]).length = 3 from rfl]
          omega
        · intro x hx
          simp at hx
          subst hx
          decide

/-- Encoding an all-ASCII run is the identity on bytes. -/
theorem utf8Encode_replicate97 (n : Nat) :
    utf8Encode (List.replicate n 97) = List.replicate n 97 := by
  induction n with
  | zero => rfl
  | succ k ih =>
    rw [List.replicate_succ, utf8Encode_cons, ih]
    rfl

/-- Decoding passes an ASCII run through unchanged. -/
theorem decode_replicate97_append (n : Nat) (l : List Nat) :
    utf8DecodeReplace (List.replicate n 97 ++ l) =
      List.replicate n 97 ++ utf8DecodeReplace l := by
  induction n with
  | zero => simp
  | succ k ih =>
    rw [List.replicate_succ, List.cons_append]
    rw [utf8DecodeReplace.eq_def]
    simp only []
    rw [if_pos (by norm_num), ih]
    simp

/-- C9 (amended): for every valid post text whose UTF-8 byte length
exceeds MAX_COMPREHEND_BYTES = 4990, the truncated text passed to
sentiment scoring and key-phrase extraction is valid UTF-8 (every
code point a Unicode scalar), and re-encodes to at most 4992 bytes:
the byte slice is at most 4990 bytes, but when it splits a multi-byte
code point the 1-3 dangling bytes decode to one 3-byte U+FFFD, so the
re-encoded length can exceed the limit by up to 2 bytes (it stays
under the scorer's 5000-byte hard ceiling). -/
theorem truncation_safety_C9 (cs : List Nat)
    (hvalid : ∀ c ∈ cs, ValidScalar c)
    (hover : utf8ByteLength cs > MAX_COMPREHEND_BYTES) :
    utf8ByteLength (truncateForComprehendCp cs) ≤ MAX_COMPREHEND_BYTES + 2 ∧
    (∀ x ∈ truncateForComprehendCp cs, ValidScalar x) := by
  unfold truncateForComprehendCp
  rw [if_pos hover]
  unfold bufferSliceDecode utf8ByteLength
  exact decode_take_encode cs MAX_COMPREHEND_BYTES hvalid

/-- Witness for C9: an all-ASCII text of 4991 bytes. -/
theorem truncation_safety_C9_witness :
    utf8ByteLength (List.replicate 4991 97) > MAX_COMPREHEND_BYTES ∧
    utf8ByteLength (truncateForComprehendCp (List.replicate 4991 97)) ≤
      MAX_COMPREHEND_BYTES + 2 ∧
    (∀ x ∈ truncateForComprehendCp (List.replicate 4991 97),
      ValidScalar x) := by
  have hvalid : ∀ c ∈ List.replicate 4991 97, ValidScalar c := by
    intro c hcmem
    rw [List.eq_of_mem_replicate hcmem]
    decide
  have hover : utf8ByteLength (List.replicate 4991 97) >
      MAX_COMPREHEND_BYTES := by
    rw [utf8ByteLength, utf8Encode_replicate97, List.length_replicate]
    norm_num [MAX_COMPREHEND_BYTES]
  have h := truncation_safety_C9 (List.replicate 4991 97) hvalid hover
  exact ⟨hover, h.1, h.2⟩

/-- Counterexample for C9 as stated: an ASCII run of 4989 bytes
followed by one four-byte code point encodes to 4993 bytes; the
4990-byte slice cuts one byte into the final code point, that byte
decodes to U+FFFD, and the truncated text re-encodes to 4992 bytes,
exceeding the claimed 4990-byte bound (and the truncation did split a
multi-byte code point). -/
theorem truncation_safety_C9_counterexample :
    utf8ByteLength (List.replicate 4989 97 ++ [0x1F600]) >
      MAX_COMPREHEND_BYTES ∧
    truncateForComprehendCp (List.replicate 4989 97 ++ [0x1F600]) =
      List.replicate 4989 97 ++ [0xFFFD] ∧
    utf8ByteLength
      (truncateForComprehendCp (List.replicate 4989 97 ++ [0x1F600])) =
      4992 := by
  have hE : utf8Encode [0x1F600] = [0xF0, 0x9F, 0x98, 0x80] := rfl
  have henc : utf8Encode (List.replicate 4989 97 ++ [0x1F600]) =
      List.replicate 4989 97 ++ [0xF0, 0x9F, 0x98, 0x80] := by
    rw [utf8Encode_append, utf8Encode_replicate97, hE]
  have hlen : utf8ByteLength (List.replicate 4989 97 ++ [0x1F600]) = 4993 := by
    rw [utf8ByteLength, henc, List.length_append, List.length_replicate]
    rfl
  have hover : utf8ByteLength (List.replicate 4989 97 ++ [0x1F600]) >
      MAX_COMPREHEND_BYTES := by
    rw [hlen]
    norm_num [MAX_COMPREHEND_BYTES]
  have hsub : MAX_COMPREHEND_BYTES - (List.replicate (4989 : Nat)
      (97 : Nat)).length = 1 := by
    rw [List.length_replicate]
    norm_num [MAX_COMPREHEND_BYTES]
  have htake : (List.replicate 4989 97 ++ [0xF0, 0x9F, 0x98, 0x80]).take
      MAX_COMPREHEND_BYTES = List.replicate 4989 97 ++ [0xF0] := by
    rw [List.take_append_eq_append_take,
      List.take_of_length_le
        (by rw [List.length_replicate]; norm_num [MAX_COMPREHEND_BYTES]),
      hsub]
    rfl
  have hdec : utf8DecodeReplace [0xF0] = [0xFFFD] := by
    rw [utf8DecodeReplace]
    norm_num
  have htrunc : truncateForComprehendCp
      (List.replicate 4989 97 ++ [0x1F600]) =
      List.replicate 4989 97 ++ [0xFFFD] := by
    unfold truncateForComprehendCp
    rw [if_pos hover]
    unfold bufferSliceDecode
    rw [henc, htake, decode_replicate97_append, hdec]
  have hE2 : utf8Encode [0xFFFD] = [0xEF, 0xBF, 0xBD] := rfl
  refine ⟨hover, htrunc, ?_⟩
  rw [htrunc, utf8ByteLength, utf8Encode_append, utf8Encode_replicate97,
    hE2, List.length_append, List.length_replicate]
  rfl

end BlueskySA
